import Mathlib

/-!
# Lockstep server network engine (`code/server/posix_net.cpp`)

A shallow embedding of the engine: the arena allocator, the per-client byte
stream buffer, the chunk queues, the wire codec, the client registry and the
functions of `posix_net.cpp`.  An `Option` result is `none` when an `Assert`
(or `InvalidCodePath`) of the C code fires.  Bytes and serialized fields are
natural numbers; file descriptors and `ssize_t` results are integers.
-/

namespace Lockstep

/-- An `Assert(...)` of the C code: the engine aborts when the condition is false. -/
def Assert (b : Bool) : Option Unit := if b then some () else none

/-! ## lib/memory.h : the arena allocator -/

/-- Modelled from the spec: the linear allocator of `lib/memory.h` (not under
src/): one region of `Capacity` cells with a cursor `Length`; `Memory` is the
content of the region.  The cells of a block that was handed to a chunk queue as
its storage are represented by the queue; their value in `Memory` has no
meaning. -/
structure linear_allocator where
  Capacity : Nat
  Length : Nat
  Memory : List Nat
  deriving DecidableEq, Repr

/-- Modelled from the spec: remaining capacity of the arena. -/
def GetLinearAllocatorFree (A : linear_allocator) : Nat := A.Capacity - A.Length

/-- Modelled from the spec: a checkpoint captures the cursor. -/
def CreateLinearAllocatorCheckpoint (A : linear_allocator) : Nat := A.Length

/-- Modelled from the spec: release rewinds the cursor to the checkpoint; the
memory written since then is left as it is. -/
def ReleaseLinearAllocatorCheckpoint (Checkpoint : Nat) (A : linear_allocator) : linear_allocator :=
  { A with Length := Checkpoint }

/-- Modelled from the spec: `allocate(size)` returns the offset of the block and
advances the cursor; it fails (fatally) when the remaining capacity is too small. -/
def LinearAllocate (A : linear_allocator) (Size : Nat) : Option (Nat × linear_allocator) :=
  if Size ≤ GetLinearAllocatorFree A then some (A.Length, { A with Length := A.Length + Size })
  else none

/-- Store `Cells` into the arena memory at `Offset`. -/
def WriteMemory (Memory : List Nat) (Offset : Nat) (Cells : List Nat) : List Nat :=
  Memory.take Offset ++ Cells ++ Memory.drop (Offset + Cells.length)

/-- Serialization into the arena: allocate as many cells as the serialized form
has and store it there (the common shape of the `Serialize...` functions, which
take the allocator and return a buffer inside it). -/
def SerializeInto (Cells : List Nat) (A : linear_allocator) : Option (List Nat × linear_allocator) :=
  match LinearAllocate A Cells.length with
  | none => none
  | some (Offset, A1) => some (Cells, { A1 with Memory := WriteMemory A1.Memory Offset Cells })

/-! ## lib/byte_ring_buffer.h : the per-client byte stream buffer -/

/-- A `buffer` of the C code: the bytes found at `Addr` and the declared `Length`. -/
structure buffer where
  Addr : List Nat
  Length : Nat
  deriving DecidableEq, Repr

/-- Modelled from the spec: the byte stream buffer of `lib/byte_ring_buffer.h`
(not under src/): a circular buffer of `Capacity` bytes; `Data` are the unread
bytes, oldest first, and `ReadPos` is the read position inside the storage. -/
structure byte_ring_buffer where
  Capacity : Nat
  ReadPos : Nat
  Data : List Nat
  deriving DecidableEq, Repr

/-- Modelled from the spec: `write(bytes)` appends, and fails with BufferFull,
changing nothing, if the capacity would be exceeded. -/
def ByteRingBufferWrite (B : byte_ring_buffer) (Input : buffer) : byte_ring_buffer :=
  if B.Data.length + Input.Length ≤ B.Capacity then
    { B with Data := B.Data ++ Input.Addr.take Input.Length }
  else B

/-- Modelled from the spec: `peek(maxLen)` is a non-destructive read of up to
`maxLen` bytes, fewer if the buffer holds less. -/
def ByteRingBufferPeek (B : byte_ring_buffer) (MaxLength : Nat) : List Nat :=
  B.Data.take MaxLength

/-- Modelled from the spec: `advance(n)` discards the first `n` bytes. -/
def ByteRingBufferReadAdvance (B : byte_ring_buffer) (N : Nat) : byte_ring_buffer :=
  { B with ReadPos := (B.ReadPos + N) % B.Capacity, Data := B.Data.drop N }

/-! ## lib/chunk_ring_buffer.h : the chunk queues -/

/-- Modelled from the spec: the chunk queue of `lib/chunk_ring_buffer.h` (not
under src/): at most `ChunkCapacity` chunks and `ByteCapacity` cells in total;
`Chunks` are the unread chunks, oldest first.  `Storage` is the offset of the
storage of the queue inside the arena of the context when the storage was
allocated from it, and `none` when it was allocated elsewhere; the storage has
`ByteCapacity` cells, and writing a chunk writes cells of the storage. -/
structure chunk_ring_buffer where
  ChunkCapacity : Nat
  ByteCapacity : Nat
  Chunks : List (List Nat)
  Storage : Option Nat
  deriving DecidableEq, Repr

/-- Whether an arena cell belongs to the storage of the queue. -/
def InQueueStorage (R : chunk_ring_buffer) (Cell : Nat) : Prop :=
  ∃ Offset, R.Storage = some Offset ∧ Offset ≤ Cell ∧ Cell < Offset + R.ByteCapacity

/-- Number of cells held by the queue. -/
def ChunkRingBufferUsed (R : chunk_ring_buffer) : Nat := (R.Chunks.map List.length).sum

/-- Whether the queue can take one more chunk of the given length. -/
def ChunkRingBufferHasRoom (R : chunk_ring_buffer) (Length : Nat) : Bool :=
  decide (R.Chunks.length < R.ChunkCapacity) && decide (ChunkRingBufferUsed R + Length ≤ R.ByteCapacity)

/-- Modelled from the spec: `write(chunk) -> bool` copies the chunk into the
ring and fails, returning false and changing nothing, if the chunk count or the
byte budget would be exceeded. -/
def ChunkRingBufferWrite (R : chunk_ring_buffer) (Chunk : List Nat) : Bool × chunk_ring_buffer :=
  if ChunkRingBufferHasRoom R Chunk.length then (true, { R with Chunks := R.Chunks ++ [Chunk] })
  else (false, R)

/-- Modelled from the spec: `read_into(scratch) -> length` copies the oldest
chunk into the scratch buffer and frees its slot; the length is 0 (an empty
chunk here) if the queue is empty, and it asserts if the chunk exceeds the
scratch capacity. -/
def ChunkRingBufferCopyRead (R : chunk_ring_buffer) (ScratchLength : Nat) :
    Option (List Nat × chunk_ring_buffer) :=
  match R.Chunks with
  | [] => some ([], R)
  | Chunk :: Rest =>
    if Chunk.length ≤ ScratchLength then some (Chunk, { R with Chunks := Rest }) else none

/-! ## common/posix_net.h : socket packets -/

/-- Modelled from the spec: the fixed width of the length header of a socket
packet (`common/posix_net.h` is not under src/); two bytes here. -/
def POSIX_PACKET_HEADER_SIZE : Nat := 2

/-- Modelled from the spec: the header of a packet encodes the payload length
(low byte first). -/
def SerializePacketHeader (Length : Nat) : List Nat := [Length % 256, Length / 256 % 256]

/-- Modelled from the spec: a socket packet is `[length][payload]`. -/
def SerializePacket (Message : List Nat) : List Nat :=
  SerializePacketHeader Message.length ++ Message

/-- Modelled from the spec: extraction of the first packet of a peeked view: the
result is the payload, and zero-length ("no complete frame") if fewer than
header-size bytes are available or fewer than header-size plus declared length. -/
def PosixExtractPacketMessage (Incoming : List Nat) : List Nat :=
  if Incoming.length < POSIX_PACKET_HEADER_SIZE then []
  else
    let Length := Incoming.headD 0 + 256 * (Incoming.tail.headD 0)
    if Incoming.length - POSIX_PACKET_HEADER_SIZE < Length then []
    else (Incoming.drop POSIX_PACKET_HEADER_SIZE).take Length

/-! ## net_events.h : events -/

/-- The constant `NET_EVENT_MAX_LENGTH` of `net_events.h`. -/
def NET_EVENT_MAX_LENGTH : Nat := 512

/-- The enum `net_event_type` of `net_events.h`. -/
inductive net_event_type where
  | net_event_type_connect
  | net_event_type_disconnect
  | net_event_type_message
  deriving DecidableEq, Repr

/-- Numeric value of an event type (the order of the enumerators). -/
def net_event_type.toNat : net_event_type → Nat
  | .net_event_type_connect => 0
  | .net_event_type_disconnect => 1
  | .net_event_type_message => 2

/-- Modelled from the spec: a Connect event is `[type][ClientID]`
(`net_events.cpp` is not under src/; every fixed-width field is one cell). -/
def ConnectNetEventCells (ID : Nat) : List Nat :=
  [net_event_type.net_event_type_connect.toNat, ID]

/-- Modelled from the spec: a Disconnect event is `[type][ClientID]`. -/
def DisconnectNetEventCells (ID : Nat) : List Nat :=
  [net_event_type.net_event_type_disconnect.toNat, ID]

/-- Modelled from the spec: a Message event is `[type][ClientID][length][payload]`,
the payload copied verbatim. -/
def MessageNetEventCells (ID : Nat) (Message : List Nat) : List Nat :=
  [net_event_type.net_event_type_message.toNat, ID, Message.length] ++ Message

/-- Modelled from the spec: `SerializeConnectNetEvent(ID, Allocator)`, declared in
`net_events.h`, builds the event inside the arena. -/
def SerializeConnectNetEvent (ID : Nat) (A : linear_allocator) :
    Option (List Nat × linear_allocator) :=
  SerializeInto (ConnectNetEventCells ID) A

/-- Modelled from the spec: `SerializeDisconnectNetEvent(ID, Allocator)`, declared in
`net_events.h`, builds the event inside the arena. -/
def SerializeDisconnectNetEvent (ID : Nat) (A : linear_allocator) :
    Option (List Nat × linear_allocator) :=
  SerializeInto (DisconnectNetEventCells ID) A

/-- Modelled from the spec: `SerializeMessageNetEvent(ID, Message, Allocator)`,
declared in `net_events.h`, builds the event inside the arena. -/
def SerializeMessageNetEvent (ID : Nat) (Message : List Nat) (A : linear_allocator) :
    Option (List Nat × linear_allocator) :=
  SerializeInto (MessageNetEventCells ID Message) A

/-! ## Declarations of headers that are not under src/ -/

/-- The constants and message functions that `posix_net.cpp` takes from headers
that are not under src/ (`net_commands.h`, `common/net_messages.h`,
`posix_net_client_set.h`); they are parameters of the embedding. -/
structure net_headers where
  /-- Declared maximum serialized size of a command. -/
  NET_COMMAND_MAX_LENGTH : Nat
  /-- Declared maximum size of a socket packet. -/
  NET_MESSAGE_MAX_LENGTH : Nat
  /-- Capacity of the client registry. -/
  POSIX_NET_CLIENT_SET_MAX : Nat
  /-- Capacity of the byte stream buffer given to a new client. -/
  ClientInBufferLength : Nat
  /-- Type tag of an application message. -/
  UnserializeNetMessageType : List Nat → Nat
  /-- Whether a type tag is one of the known message types. -/
  ValidateNetMessageType : Nat → Bool
  /-- The enumerator `net_message_type_reply`. -/
  net_message_type_reply : Nat
  /-- The enumerator `net_message_type_order`. -/
  net_message_type_order : Nat
  /-- What the unserialized order message occupies in the arena. -/
  OrderNetMessageCells : List Nat → List Nat
  /-- Validation of the unserialized order message. -/
  ValidateOrderNetMessage : List Nat → Bool
  /-- The `ID` that a pointer to the client of a storage slot, taken before
  `DestroyClient`, reads after it, given the identifiers of the registered
  clients in storage order and the slot.  `DestroyClient` is not under src/ and
  the specification does not say what it leaves in the freed slot, so the value
  is left open. -/
  IDAfterDestroy : List Nat → Nat → Nat

/-- Modelled from the spec: `UnserializeOrderNetMessage(Message, Allocator)` of
`common/net_messages.h` (not under src/): the order is built inside
the arena. -/
def UnserializeOrderNetMessage (H : net_headers) (Message : List Nat) (A : linear_allocator) :
    Option (List Nat × linear_allocator) :=
  SerializeInto (H.OrderNetMessageCells Message) A

/-! ## posix_net_client_set.h : the client registry -/

/-- A connected client (`posix_net_client`), with the fields that `posix_net.cpp`
uses: `ID`, `FD` and `InBuffer`. -/
structure posix_net_client where
  ID : Nat
  FD : Int
  InBuffer : byte_ring_buffer
  deriving DecidableEq, Repr

/-- Modelled from the spec: the client registry of `posix_net_client_set.h` (not
under src/): the live clients occupy the storage slots `0 .. Count-1` in the
order of `Clients`; `NextID` is the next identifier to assign. -/
structure posix_net_client_set where
  Clients : List posix_net_client
  NextID : Nat
  deriving DecidableEq, Repr

/-- The field `Count` of the registry. -/
def posix_net_client_set.Count (Set : posix_net_client_set) : Nat := Set.Clients.length

/-- Modelled from the spec: the registry starts empty; the first identifier is 1. -/
def InitPosixNetClientSet : posix_net_client_set := { Clients := [], NextID := 1 }

/-- Modelled from the spec: `create(ioHandle)` registers a client with a fresh,
monotonically assigned identifier and an empty byte stream buffer, in the first
free slot; the result is the slot of the new client. -/
def CreateClient (H : net_headers) (Set : posix_net_client_set) (FD : Int) :
    posix_net_client × posix_net_client_set :=
  let Client : posix_net_client :=
    { ID := Set.NextID, FD := FD,
      InBuffer := { Capacity := H.ClientInBufferLength, ReadPos := 0, Data := [] } }
  (Client, { Clients := Set.Clients ++ [Client], NextID := Set.NextID + 1 })

/-- Modelled from the spec: `destroy(iterator_position)` removes the current
element, here the client of slot `Index`, during iteration; every other client
stays registered, and the iteration goes on with the clients not yet visited, so
the slot `Index` is visited again. -/
def DestroyClient (Set : posix_net_client_set) (Index : Nat) : posix_net_client_set :=
  { Set with Clients := Set.Clients.eraseIdx Index }

/-- Modelled from the spec: `find(ClientID)`, absent if unknown; the result is
the slot and the client. -/
def FindClientByID (Set : posix_net_client_set) (ID : Nat) : Option posix_net_client :=
  Set.Clients.find? (fun Client => Client.ID == ID)

/-! ## net_commands.h : commands -/

/-- The command types that `ProcessCommands` switches over. -/
inductive net_command_type where
  | net_command_type_broadcast
  | net_command_type_send
  | net_command_type_shutdown
  deriving DecidableEq, Repr

/-- Modelled from the spec: the commands of `net_commands.h` (not under src/):
Broadcast, Send and Shutdown. -/
inductive net_command where
  | broadcast (ClientIDs : List Nat) (Message : List Nat)
  | send (ClientID : Nat) (Message : List Nat)
  | shutdown
  deriving DecidableEq, Repr

/-- Modelled from the spec: the serialized form of a command,
`[type][fields...]` (`net_commands.cpp` is not under src/; every fixed-width
field is one cell): Broadcast carries the count and the list of ClientIDs and the
length-prefixed message, Send one ClientID and the message, Shutdown nothing. -/
def NetCommandCells : net_command → List Nat
  | .broadcast ClientIDs Message => [0, ClientIDs.length] ++ ClientIDs ++ [Message.length] ++ Message
  | .send ClientID Message => [1, ClientID, Message.length] ++ Message
  | .shutdown => [2]

/-- Modelled from the spec: `UnserializeNetCommandType`; an unknown tag is an
internal fault, which the caller reaches through `InvalidCodePath`. -/
def UnserializeNetCommandType (Command : List Nat) : Option net_command_type :=
  match Command.headD 3 with
  | 0 => some .net_command_type_broadcast
  | 1 => some .net_command_type_send
  | 2 => some .net_command_type_shutdown
  | _ => none

/-- Modelled from the spec: `UnserializeBroadcastNetCommand`, the ClientIDs and
the message of a serialized Broadcast. -/
def UnserializeBroadcastNetCommand (Command : List Nat) : List Nat × List Nat :=
  let Count := (Command.drop 1).headD 0
  let ClientIDs := (Command.drop 2).take Count
  let Length := (Command.drop (2 + Count)).headD 0
  (ClientIDs, (Command.drop (3 + Count)).take Length)

/-- Modelled from the spec: `UnserializeSendNetCommand`, the ClientID and the
message of a serialized Send. -/
def UnserializeSendNetCommand (Command : List Nat) : Nat × List Nat :=
  let Length := (Command.drop 2).headD 0
  ((Command.drop 1).headD 0, (Command.drop 3).take Length)

/-- Modelled from the spec: `SerializeShutdownNetCommand(Allocator)` builds the
command inside the arena. -/
def SerializeShutdownNetCommand (A : linear_allocator) : Option (List Nat × linear_allocator) :=
  SerializeInto (NetCommandCells .shutdown) A

/-- Modelled from the spec: `SerializeBroadcastNetCommand(IDs, IDCount, Message,
Allocator)` builds the command inside the arena. -/
def SerializeBroadcastNetCommand (IDs : List Nat) (Message : List Nat) (A : linear_allocator) :
    Option (List Nat × linear_allocator) :=
  SerializeInto (NetCommandCells (.broadcast IDs Message)) A

/-- Modelled from the spec: `SerializeSendNetCommand(ID, Message, Allocator)` builds
the command inside the arena. -/
def SerializeSendNetCommand (ID : Nat) (Message : List Nat) (A : linear_allocator) :
    Option (List Nat × linear_allocator) :=
  SerializeInto (NetCommandCells (.send ID Message)) A

/-! ## posix_net.h : the engine context -/

/-- The engine modes used by `posix_net.cpp`: Running, Draining, Stopped. -/
inductive net_mode where
  | net_mode_running
  | net_mode_disconnecting
  | net_mode_stopped
  deriving DecidableEq, Repr

/-- A call the engine makes on a socket handle. -/
inductive socket_call where
  | send_packet (FD : Int) (Message : List Nat)
  | shutdown (FD : Int)
  | close (FD : Int)
  deriving DecidableEq, Repr

/-- The context of the engine (`posix_net_context` of `posix_net.h`), with the
fields that `posix_net.cpp` uses.  The scratch buffers
`ReceiveBuffer`, `CommandReadBuffer` and `IncomingReadBuffer` are represented by
their lengths.  `WakePending` (the bytes waiting in the wake pipe) and
`SocketCalls` (the calls made on socket handles so far, oldest first) are the
state of the operating system that the functions act on. -/
structure posix_net_context where
  Allocator : linear_allocator
  CommandRing : chunk_ring_buffer
  EventRing : chunk_ring_buffer
  ReceiveBuffer : Nat
  CommandReadBuffer : Nat
  IncomingReadBuffer : Nat
  ClientSet : posix_net_client_set
  HostFD : Int
  WakeReadFD : Int
  WakeWriteFD : Int
  ReadFDMax : Int
  Mode : net_mode
  WakePending : Nat
  SocketCalls : List socket_call
  deriving DecidableEq, Repr

/-- The function `RequestWake`: one byte is written to the wake pipe. -/
def RequestWake (Context : posix_net_context) : posix_net_context :=
  { Context with WakePending := Context.WakePending + 1 }

/-- The function `CheckNewReadFD`. -/
def CheckNewReadFD (Context : posix_net_context) (NewFD : Int) : posix_net_context :=
  { Context with ReadFDMax := max Context.ReadFDMax NewFD }

/-- The function `RecalcReadFDMax`. -/
def RecalcReadFDMax (Context : posix_net_context) : posix_net_context :=
  let Context0 := { Context with ReadFDMax := 0 }
  let Context1 := Context0.ClientSet.Clients.foldl (fun C Client => CheckNewReadFD C Client.FD) Context0
  let Context2 := CheckNewReadFD Context1 Context1.WakeReadFD
  CheckNewReadFD Context2 Context2.HostFD

/-- The function `InitPosixNet`: the arena of `1024*1024*5` cells, the wake
pipe, the two queues (50 chunks, `1024*100` cells; the storage of the command
queue is the block allocated from the arena, that of the event queue is
allocated elsewhere), the scratch buffers, the empty registry and the listening
socket, bound and listening.  `Mode0` is what the field `Mode`, which
`InitPosixNet` does not set, holds; `ArenaMemory` is the content of the freshly
allocated region; `WakeFDs`, `HostSocket`, `BindResult` and `ListenResult` are
the results of `pipe`, `socket`, `bind` and `listen`. -/
def InitPosixNet (H : net_headers) (Mode0 : net_mode) (ArenaMemory : List Nat)
    (WakeFDs : Int × Int) (HostSocket BindResult ListenResult : Int) :
    Option posix_net_context := do
  let Allocator0 : linear_allocator := { Capacity := 1024*1024*5, Length := 0, Memory := ArenaMemory }
  let ReadFDMax0 : Int := 0
  let ReadFDMax1 := max ReadFDMax0 WakeFDs.1
  let (CommandBufferAddr, Allocator1) ← LinearAllocate Allocator0 (1024*100)
  Assert (decide (HostSocket ≠ -1))
  let ReadFDMax2 := max ReadFDMax1 HostSocket
  Assert (decide (BindResult ≠ -1))
  Assert (decide (ListenResult = 0))
  some {
    Allocator := Allocator1
    CommandRing :=
      { ChunkCapacity := 50, ByteCapacity := 1024*100, Chunks := [],
        Storage := some CommandBufferAddr }
    EventRing := { ChunkCapacity := 50, ByteCapacity := 1024*100, Chunks := [], Storage := none }
    ReceiveBuffer := 1024*10
    CommandReadBuffer := H.NET_COMMAND_MAX_LENGTH
    IncomingReadBuffer := H.NET_MESSAGE_MAX_LENGTH
    ClientSet := InitPosixNetClientSet
    HostFD := HostSocket
    WakeReadFD := WakeFDs.1
    WakeWriteFD := WakeFDs.2
    ReadFDMax := ReadFDMax2
    Mode := Mode0
    WakePending := 0
    SocketCalls := [] }

/-- The function `ShutdownPosixNet`; the C function returns `void`, and the result of the
write to the command queue is not looked at. -/
def ShutdownPosixNet (H : net_headers) (Context : posix_net_context) :
    Option (Unit × posix_net_context) := do
  let MemCheckpoint := CreateLinearAllocatorCheckpoint Context.Allocator
  Assert (decide (GetLinearAllocatorFree Context.Allocator ≥ H.NET_COMMAND_MAX_LENGTH))
  let (Command, Allocator1) ← SerializeShutdownNetCommand Context.Allocator
  let CommandRing := (ChunkRingBufferWrite Context.CommandRing Command).2
  let Allocator2 := ReleaseLinearAllocatorCheckpoint MemCheckpoint Allocator1
  some ((), RequestWake { Context with Allocator := Allocator2, CommandRing := CommandRing })

/-- The function `PosixNetBroadcast`; the C function returns `void`. -/
def PosixNetBroadcast (H : net_headers) (Context : posix_net_context) (IDs : List Nat)
    (Message : List Nat) : Option (Unit × posix_net_context) := do
  let MemCheckpoint := CreateLinearAllocatorCheckpoint Context.Allocator
  Assert (decide (GetLinearAllocatorFree Context.Allocator ≥ H.NET_COMMAND_MAX_LENGTH))
  let (Command, Allocator1) ← SerializeBroadcastNetCommand IDs Message Context.Allocator
  let CommandRing := (ChunkRingBufferWrite Context.CommandRing Command).2
  let Allocator2 := ReleaseLinearAllocatorCheckpoint MemCheckpoint Allocator1
  some ((), RequestWake { Context with Allocator := Allocator2, CommandRing := CommandRing })

/-- The function `PosixNetSend`; the C function returns `void`. -/
def PosixNetSend (H : net_headers) (Context : posix_net_context) (ID : Nat) (Message : List Nat) :
    Option (Unit × posix_net_context) := do
  let MemCheckpoint := CreateLinearAllocatorCheckpoint Context.Allocator
  Assert (decide (GetLinearAllocatorFree Context.Allocator ≥ H.NET_COMMAND_MAX_LENGTH))
  let (Command, Allocator1) ← SerializeSendNetCommand ID Message Context.Allocator
  let CommandRing := (ChunkRingBufferWrite Context.CommandRing Command).2
  let Allocator2 := ReleaseLinearAllocatorCheckpoint MemCheckpoint Allocator1
  some ((), RequestWake { Context with Allocator := Allocator2, CommandRing := CommandRing })

/-- The function `ReadPosixNetEvent`: the oldest event is copied into the caller's buffer of
`BufferLength` cells; the result is the event (empty when there is none). -/
def ReadPosixNetEvent (Context : posix_net_context) (BufferLength : Nat) :
    Option (List Nat × posix_net_context) :=
  match ChunkRingBufferCopyRead Context.EventRing BufferLength with
  | none => none
  | some (Event, EventRing) => some (Event, { Context with EventRing := EventRing })

/-! ## The engine thread -/

/-- The results of the system calls of one iteration of the engine loop. -/
structure posix_env where
  /-- Result of `select`. -/
  SelectResult : Int
  /-- The descriptors that are readable. -/
  Ready : List Int
  /-- Result of `PosixNetReceive(FD, ReceiveBuffer)` and the content of the
  receive buffer afterwards. -/
  Receive : Int → Int × List Nat
  /-- Result of `close(FD)`. -/
  Close : Int → Int
  /-- Result of `shutdown(FD, SHUT_RDWR)`. -/
  Shutdown : Int → Int
  /-- Result of the one-byte `read` on the wake pipe. -/
  WakeRead : Int
  /-- Result of `accept`. -/
  Accept : Int

/-- Modelled from the spec: `PosixNetSendPacket(FD, Message)` of `common/posix_net.h`
(not under src/): a packet with the message goes to the handle. -/
def PosixNetSendPacket (Context : posix_net_context) (FD : Int) (Message : List Nat) :
    posix_net_context :=
  { Context with SocketCalls := Context.SocketCalls ++ [.send_packet FD Message] }

/-- The Shutdown case of `ProcessCommands`: `shutdown` on the handle of every
client, in iteration order, each result asserted to be 0. -/
def ShutdownClients (Env : posix_env) :
    List posix_net_client → posix_net_context → Option posix_net_context
  | [], Context => some Context
  | Client :: Rest, Context => do
    let Result := Env.Shutdown Client.FD
    Assert (decide (Result = 0))
    ShutdownClients Env Rest
      { Context with SocketCalls := Context.SocketCalls ++ [.shutdown Client.FD] }

/-- The Broadcast case of `ProcessCommands`: the loop over the listed ClientIDs. -/
def BroadcastToClients (Message : List Nat) :
    List Nat → posix_net_context → posix_net_context
  | [], Context => Context
  | ID :: Rest, Context =>
    match FindClientByID Context.ClientSet ID with
    | some Client => BroadcastToClients Message Rest (PosixNetSendPacket Context Client.FD Message)
    | none => BroadcastToClients Message Rest Context

/-- The `while` loop of `ProcessCommands`, with a bound on the number of reads. -/
def ProcessCommandsLoop (Env : posix_env) : Nat → posix_net_context → Option posix_net_context
  | 0, _ => none
  | Fuel + 1, Context =>
    match ChunkRingBufferCopyRead Context.CommandRing Context.CommandReadBuffer with
    | none => none
    | some (Command, CommandRing) =>
      let Context1 := { Context with CommandRing := CommandRing }
      if Command.length = 0 then some Context1
      else
        match UnserializeNetCommandType Command with
        | some .net_command_type_broadcast =>
          let BroadcastCommand := UnserializeBroadcastNetCommand Command
          ProcessCommandsLoop Env Fuel
            (BroadcastToClients BroadcastCommand.2 BroadcastCommand.1 Context1)
        | some .net_command_type_send =>
          let SendCommand := UnserializeSendNetCommand Command
          match FindClientByID Context1.ClientSet SendCommand.1 with
          | some Client =>
            ProcessCommandsLoop Env Fuel (PosixNetSendPacket Context1 Client.FD SendCommand.2)
          | none => ProcessCommandsLoop Env Fuel Context1
        | some .net_command_type_shutdown =>
          match ShutdownClients Env Context1.ClientSet.Clients Context1 with
          | none => none
          | some Context2 =>
            ProcessCommandsLoop Env Fuel { Context2 with Mode := .net_mode_disconnecting }
        | none => none

/-- The function `ProcessCommands`: one read per queued chunk and the read that finds the
queue empty. -/
def ProcessCommands (Env : posix_env) (Context : posix_net_context) : Option posix_net_context :=
  ProcessCommandsLoop Env (Context.CommandRing.Chunks.length + 1) Context

/-- The lines that emit an event, the same for the three kinds of event: arena
checkpoint, assert that `NET_EVENT_MAX_LENGTH` is free, serialization into the
arena, write to the event queue (the result of the write is not looked at),
release of the checkpoint. -/
def WriteNetEvent (Serialize : linear_allocator → Option (List Nat × linear_allocator))
    (Context : posix_net_context) : Option posix_net_context := do
  let MemCheckpoint := CreateLinearAllocatorCheckpoint Context.Allocator
  Assert (decide (GetLinearAllocatorFree Context.Allocator ≥ NET_EVENT_MAX_LENGTH))
  let (Event, Allocator1) ← Serialize Context.Allocator
  let EventRing := (ChunkRingBufferWrite Context.EventRing Event).2
  let Allocator2 := ReleaseLinearAllocatorCheckpoint MemCheckpoint Allocator1
  some { Context with Allocator := Allocator2, EventRing := EventRing }

/-- The check of an extracted message in `ProcessIncoming`: the assert on the
message type and the `switch` over it; an order is unserialized into the arena
and validated under its own checkpoint, any other type than reply and order is
`InvalidCodePath`. -/
def CheckIncomingMessage (H : net_headers) (Message : List Nat) (A : linear_allocator) :
    Option linear_allocator :=
  let MessageType := H.UnserializeNetMessageType Message
  match Assert (H.ValidateNetMessageType MessageType) with
  | none => none
  | some _ =>
    if MessageType = H.net_message_type_reply then some A
    else if MessageType = H.net_message_type_order then
      let MemCheckpoint := CreateLinearAllocatorCheckpoint A
      match UnserializeOrderNetMessage H Message A with
      | none => none
      | some (OrderMessage, Allocator0) =>
        match Assert (H.ValidateOrderNetMessage OrderMessage) with
        | none => none
        | some _ => some (ReleaseLinearAllocatorCheckpoint MemCheckpoint Allocator0)
    else none

/-- The `for(;;)` loop of `ProcessIncoming`, with a bound on the number of rounds. -/
def ProcessIncomingLoop (H : net_headers) :
    Nat → posix_net_context → posix_net_client → Option (posix_net_context × posix_net_client)
  | 0, _, _ => none
  | Fuel + 1, Context, Client =>
    let Incoming := ByteRingBufferPeek Client.InBuffer Context.IncomingReadBuffer
    let Message := PosixExtractPacketMessage Incoming
    if Message.length = 0 then some (Context, Client)
    else
      match CheckIncomingMessage H Message Context.Allocator with
      | none => none
      | some Allocator1 =>
        match WriteNetEvent (SerializeMessageNetEvent Client.ID Message)
            { Context with Allocator := Allocator1 } with
        | none => none
        | some Context1 =>
          ProcessIncomingLoop H Fuel Context1
            { Client with InBuffer :=
                ByteRingBufferReadAdvance Client.InBuffer (POSIX_PACKET_HEADER_SIZE + Message.length) }

/-- The function `ProcessIncoming(Context, Client)`: every round but the last consumes at
least one byte of the buffer. -/
def ProcessIncoming (H : net_headers) (Context : posix_net_context) (Client : posix_net_client) :
    Option (posix_net_context × posix_net_client) :=
  ProcessIncomingLoop H (Client.InBuffer.Data.length + 1) Context Client

/-- The readiness set built at the start of an iteration (`FD_ZERO`, then
`FD_SET` for every client, the listening handle and the wake handle). -/
def BuildFDSet (Context : posix_net_context) : List Int :=
  Context.ClientSet.Clients.map (fun Client => Client.FD) ++ [Context.HostFD, Context.WakeReadFD]

/-- The `select` call: of the descriptors of the set, those below `NFDs` that
are readable stay in the set. -/
def select (Env : posix_env) (NFDs : Int) (FDSet : List Int) : Int × List Int :=
  (Env.SelectResult, FDSet.filter (fun FD => decide (FD < NFDs) && decide (FD ∈ Env.Ready)))

/-- The test `FD_ISSET(FD, &FDSet)`. -/
def FD_ISSET (FD : Int) (FDSet : List Int) : Bool := decide (FD ∈ FDSet)

/-- The conversion of an `ssize_t` to `memsize` (64 bits) in `Input.Length = Result`. -/
def ToMemsize (Result : Int) : Nat := (Result % 2^64).toNat

/-- The branch of the client loop taken when the read result is 0: `close`,
`DestroyClient`, then the Disconnect event, whose `Client->ID` is read through
the pointer taken before `DestroyClient`. -/
def DisconnectClient (H : net_headers) (Env : posix_env) (Context : posix_net_context)
    (Index : Nat) (Client : posix_net_client) : Option posix_net_context := do
  let Result := Env.Close Client.FD
  Assert (decide (Result ≠ -1))
  let ClientSet := DestroyClient Context.ClientSet Index
  let ID := H.IDAfterDestroy (Context.ClientSet.Clients.map (fun Registered => Registered.ID)) Index
  WriteNetEvent (SerializeDisconnectNetEvent ID)
    { Context with
      ClientSet := ClientSet, SocketCalls := Context.SocketCalls ++ [.close Client.FD] }

/-- The two calls of the `else` branch of the client loop: the input is written
to the client's buffer (the result of the write is not looked at), then
`ProcessIncoming`. -/
def ReceiveInput (H : net_headers) (Context : posix_net_context) (Client : posix_net_client)
    (Input : buffer) : Option (posix_net_context × posix_net_client) :=
  ProcessIncoming H Context { Client with InBuffer := ByteRingBufferWrite Client.InBuffer Input }

/-- The `else` branch of the client loop for the client of storage slot `Index`:
the read result becomes the length of the input. -/
def ReceiveFromClient (H : net_headers) (Context : posix_net_context) (Index : Nat)
    (Client : posix_net_client) (Result : Int) (ReceiveBuffer : List Nat) :
    Option posix_net_context :=
  match ReceiveInput H Context Client { Addr := ReceiveBuffer, Length := ToMemsize Result } with
  | none => none
  | some (Context1, Client2) =>
    some { Context1 with
      ClientSet := { Context1.ClientSet with Clients := Context1.ClientSet.Clients.set Index Client2 } }

/-- Successive reads of one client: each read is appended to the client's buffer
and `ProcessIncoming` is called after each one. -/
def ReceiveReads (H : net_headers) :
    List (List Nat) → posix_net_context → posix_net_client →
      Option (posix_net_context × posix_net_client)
  | [], Context, Client => some (Context, Client)
  | Read :: Rest, Context, Client =>
    match ReceiveInput H Context Client { Addr := Read, Length := Read.length } with
    | none => none
    | some (Context1, Client1) => ReceiveReads H Rest Context1 Client1

/-- The loop over the clients in `RunPosixNet`, from storage slot `Index` on,
with a bound on the number of rounds.  After `DestroyClient` the iterator has
stepped back, so the same slot is visited next. -/
def ServiceClientsLoop (H : net_headers) (Env : posix_env) (FDSet : List Int) :
    Nat → Nat → posix_net_context → Option posix_net_context
  | 0, _, _ => none
  | Fuel + 1, Index, Context =>
    match Context.ClientSet.Clients.get? Index with
    | none => some Context
    | some Client =>
      if FD_ISSET Client.FD FDSet then
        let Received := Env.Receive Client.FD
        if Received.1 = 0 then
          match DisconnectClient H Env Context Index Client with
          | none => none
          | some Context1 => ServiceClientsLoop H Env FDSet Fuel Index (RecalcReadFDMax Context1)
        else
          match ReceiveFromClient H Context Index Client Received.1 Received.2 with
          | none => none
          | some Context1 => ServiceClientsLoop H Env FDSet Fuel (Index + 1) (RecalcReadFDMax Context1)
      else ServiceClientsLoop H Env FDSet Fuel (Index + 1) (RecalcReadFDMax Context)

/-- The client loop of one iteration: every round either removes a client or
moves to the next slot. -/
def ServiceClients (H : net_headers) (Env : posix_env) (FDSet : List Int)
    (Context : posix_net_context) : Option posix_net_context :=
  ServiceClientsLoop H Env FDSet (Context.ClientSet.Count + 1) 0 Context

/-- The wake part of one iteration. -/
def ServiceWake (Env : posix_env) (FDSet : List Int) (Context : posix_net_context) :
    Option posix_net_context :=
  if FD_ISSET Context.WakeReadFD FDSet then do
    let Result := Env.WakeRead
    Assert (decide (Result ≠ -1))
    ProcessCommands Env { Context with WakePending := Context.WakePending - 1 }
  else some Context

/-- The condition under which one iteration accepts a connection. -/
def AcceptCondition (H : net_headers) (FDSet : List Int) (Context : posix_net_context) : Bool :=
  FD_ISSET Context.HostFD FDSet &&
  decide (Context.ClientSet.Count ≠ H.POSIX_NET_CLIENT_SET_MAX) &&
  decide (Context.Mode = .net_mode_running)

/-- The accept part of one iteration. -/
def ServiceAccept (H : net_headers) (Env : posix_env) (FDSet : List Int)
    (Context : posix_net_context) : Option posix_net_context :=
  if AcceptCondition H FDSet Context then do
    let ClientFD := Env.Accept
    Assert (decide (ClientFD ≠ -1))
    let (Client, ClientSet) := CreateClient H Context.ClientSet ClientFD
    let Context1 := CheckNewReadFD { Context with ClientSet := ClientSet } ClientFD
    WriteNetEvent (SerializeConnectNetEvent Client.ID) Context1
  else some Context

/-- The end of one iteration: Draining with an empty registry becomes Stopped. -/
def CheckStopped (Context : posix_net_context) : posix_net_context :=
  if Context.Mode = .net_mode_disconnecting then
    if Context.ClientSet.Count = 0 then { Context with Mode := .net_mode_stopped }
    else Context
  else Context

/-- The body of the `while` loop of `RunPosixNet` up to its last `if`: the
readiness set, `select`, the client loop, the wake part and the accept part. -/
def RunPosixNetServices (H : net_headers) (Env : posix_env) (Context : posix_net_context) :
    Option posix_net_context := do
  let FDSet0 := BuildFDSet Context
  let (SelectResult, FDSet) := select Env (Context.ReadFDMax + 1) FDSet0
  Assert (decide (SelectResult ≠ -1))
  let Context1 ← ServiceClients H Env FDSet Context
  let Context2 ← ServiceWake Env FDSet Context1
  ServiceAccept H Env FDSet Context2

/-- One iteration of the `while` loop of `RunPosixNet`. -/
def RunPosixNetIteration (H : net_headers) (Env : posix_env) (Context : posix_net_context) :
    Option posix_net_context :=
  match RunPosixNetServices H Env Context with
  | none => none
  | some Context3 => some (CheckStopped Context3)

/-- The `while(Context->Mode != net_mode_stopped)` loop of `RunPosixNet`, run on
the system call results of its successive iterations; it ends when the mode is
Stopped, and is still blocked in `select` when the results are used up. -/
def RunPosixNetLoop (H : net_headers) : List posix_env → posix_net_context → Option posix_net_context
  | [], Context => some Context
  | Env :: Rest, Context =>
    if Context.Mode = .net_mode_stopped then some Context
    else
      match RunPosixNetIteration H Env Context with
      | none => none
      | some Context1 => RunPosixNetLoop H Rest Context1

/-- The function `RunPosixNet`. -/
def RunPosixNet (H : net_headers) (Envs : List posix_env) (Context : posix_net_context) :
    Option posix_net_context :=
  RunPosixNetLoop H Envs { Context with Mode := .net_mode_running }

/-! ## Predicates used by the statements -/

/-- The maximum named for `ReadFDMax`: `M` is one of 0, the listening handle,
the wake read handle and the client handles, and none of them is above it. -/
def IsHandleMax (Context : posix_net_context) (M : Int) : Prop :=
  (M = 0 ∨ M = Context.HostFD ∨ M = Context.WakeReadFD ∨
    ∃ Client ∈ Context.ClientSet.Clients, M = Client.FD) ∧
  0 ≤ M ∧ Context.HostFD ≤ M ∧ Context.WakeReadFD ≤ M ∧
  ∀ Client ∈ Context.ClientSet.Clients, Client.FD ≤ M

/-- The fields that `ProcessCommands` leaves alone. -/
def CommandsFrame (C D : posix_net_context) : Prop :=
  D.Allocator = C.Allocator ∧ D.EventRing = C.EventRing ∧ D.ReceiveBuffer = C.ReceiveBuffer ∧
  D.CommandReadBuffer = C.CommandReadBuffer ∧ D.IncomingReadBuffer = C.IncomingReadBuffer ∧
  D.ClientSet = C.ClientSet ∧ D.HostFD = C.HostFD ∧ D.WakeReadFD = C.WakeReadFD ∧
  D.WakeWriteFD = C.WakeWriteFD ∧ D.ReadFDMax = C.ReadFDMax ∧ D.WakePending = C.WakePending

/-- The reference for the packets of one command, in the words of the
specification: a Send yields one packet with its message to the handle of its
ClientID if that ID is in the registry and nothing otherwise; a Broadcast
yields, in list order, one packet with its message for each listed ClientID that
is in the registry; a Shutdown yields no packet. -/
def ReferencePackets (Set : posix_net_client_set) : net_command → List socket_call
  | .send ClientID Message =>
    match FindClientByID Set ClientID with
    | some Client => [.send_packet Client.FD Message]
    | none => []
  | .broadcast ClientIDs Message =>
    ClientIDs.filterMap (fun ClientID =>
      (FindClientByID Set ClientID).map (fun Client => socket_call.send_packet Client.FD Message))
  | .shutdown => []

/-- The reference for the socket calls of one command: the packets, and for a
Shutdown the half-close of every registered client. -/
def ReferenceCalls (Set : posix_net_client_set) : net_command → List socket_call
  | .shutdown => Set.Clients.map (fun Client => socket_call.shutdown Client.FD)
  | Command => ReferencePackets Set Command

/-- Whether a socket call is the sending of a packet. -/
def socket_call.isPacket : socket_call → Bool
  | .send_packet _ _ => true
  | _ => false

/-- The event queue after successive writes of the given chunks. -/
def WriteChunks (R : chunk_ring_buffer) (Chunks : List (List Nat)) : chunk_ring_buffer :=
  Chunks.foldl (fun Ring Chunk => (ChunkRingBufferWrite Ring Chunk).2) R

/-- A payload that `ProcessIncoming` takes for a message when `Free` cells of the
arena are free: it is not empty, its length fits the two-byte header, its type
tag passes the assert and is reply or order, an order can be unserialized into
the arena and passes its assert, and the arena has room for the event. -/
def AcceptedMessage (H : net_headers) (Free : Nat) (Message : List Nat) : Prop :=
  Message ≠ [] ∧ Message.length < 65536 ∧
  H.ValidateNetMessageType (H.UnserializeNetMessageType Message) = true ∧
  (H.UnserializeNetMessageType Message = H.net_message_type_reply ∨
    (H.UnserializeNetMessageType Message = H.net_message_type_order ∧
      (H.OrderNetMessageCells Message).length ≤ Free ∧
      H.ValidateOrderNetMessage (H.OrderNetMessageCells Message) = true)) ∧
  NET_EVENT_MAX_LENGTH ≤ Free ∧ 3 + Message.length ≤ Free

/-- The byte stream of a sequence of socket packets with the given payloads. -/
def PacketStream (Payloads : List (List Nat)) : List Nat :=
  (Payloads.map SerializePacket).flatten

/-- What a buffer holds between two packets of a stream: nothing when no packet
is left, and otherwise less than the first packet that is left. -/
def PartialPacket (Data : List Nat) : List (List Nat) → Prop
  | [] => Data = []
  | Payload :: _ => Data.length < (SerializePacket Payload).length

instance (H : net_headers) (Free : Nat) (Message : List Nat) :
    Decidable (AcceptedMessage H Free Message) := by
  unfold AcceptedMessage
  infer_instance

/-- Whether the queue has room for all the given chunks. -/
def HasRoomForAll (R : chunk_ring_buffer) (Chunks : List (List Nat)) : Prop :=
  R.Chunks.length + Chunks.length ≤ R.ChunkCapacity ∧
  ChunkRingBufferUsed R + (Chunks.map List.length).sum ≤ R.ByteCapacity

instance (R : chunk_ring_buffer) (Chunks : List (List Nat)) : Decidable (HasRoomForAll R Chunks) := by
  unfold HasRoomForAll
  infer_instance

/-- A buffer content that holds no complete socket packet, in the words of the
specification: fewer bytes than the header, or fewer than the header size plus
the payload length that the header declares. -/
def NoCompletePacket (Data : List Nat) : Prop :=
  Data.length < POSIX_PACKET_HEADER_SIZE ∨
  Data.length < POSIX_PACKET_HEADER_SIZE + (Data.headD 0 + 256 * Data.tail.headD 0)

instance (Data : List Nat) : Decidable (NoCompletePacket Data) := by
  unfold NoCompletePacket
  infer_instance

/-- The `submit(Command)` of the owner: the owner-side function of each kind of
command. -/
def SubmitNetCommand (H : net_headers) (Context : posix_net_context) :
    net_command → Option (Unit × posix_net_context)
  | .send ID Message => PosixNetSend H Context ID Message
  | .broadcast IDs Message => PosixNetBroadcast H Context IDs Message
  | .shutdown => ShutdownPosixNet H Context

/-- The parts of the engine state that the owner-side functions leave alone: the
registry with the byte stream buffers, the handles, the mode, `ReadFDMax`, the
scratch buffers, the socket calls, and of the arena the capacity, the cursor and
the cells below the cursor that are not storage of the command queue. -/
def OwnerFrame (C D : posix_net_context) : Prop :=
  D.ClientSet = C.ClientSet ∧ D.HostFD = C.HostFD ∧ D.WakeReadFD = C.WakeReadFD ∧
  D.WakeWriteFD = C.WakeWriteFD ∧ D.ReadFDMax = C.ReadFDMax ∧ D.Mode = C.Mode ∧
  D.ReceiveBuffer = C.ReceiveBuffer ∧ D.CommandReadBuffer = C.CommandReadBuffer ∧
  D.IncomingReadBuffer = C.IncomingReadBuffer ∧ D.SocketCalls = C.SocketCalls ∧
  D.Allocator.Capacity = C.Allocator.Capacity ∧ D.Allocator.Length = C.Allocator.Length ∧
  ∀ Cell, Cell < C.Allocator.Length → ¬ InQueueStorage C.CommandRing Cell →
    D.Allocator.Memory[Cell]? = C.Allocator.Memory[Cell]?

/-- The arena after `Cells` were serialized at the cursor under a checkpoint
that was then released: the cursor is back, the cells stay in the memory. -/
def ScratchWritten (A : linear_allocator) (Cells : List Nat) : linear_allocator :=
  { A with Memory := WriteMemory A.Memory A.Length Cells }

/-- The context after an event of the given cells was emitted. -/
def EventWritten (C : posix_net_context) (Cells : List Nat) : posix_net_context :=
  { C with
    Allocator := ScratchWritten C.Allocator Cells
    EventRing := (ChunkRingBufferWrite C.EventRing Cells).2 }

/-- The fields that the client loop of an iteration leaves alone. -/
def ServiceFrame (C D : posix_net_context) : Prop :=
  D.Allocator.Capacity = C.Allocator.Capacity ∧ D.Allocator.Length = C.Allocator.Length ∧
  D.CommandRing = C.CommandRing ∧ D.ReceiveBuffer = C.ReceiveBuffer ∧
  D.CommandReadBuffer = C.CommandReadBuffer ∧ D.IncomingReadBuffer = C.IncomingReadBuffer ∧
  D.HostFD = C.HostFD ∧ D.WakeReadFD = C.WakeReadFD ∧ D.WakeWriteFD = C.WakeWriteFD ∧
  D.Mode = C.Mode ∧ D.WakePending = C.WakePending ∧
  D.ClientSet.NextID = C.ClientSet.NextID ∧ D.ClientSet.Count ≤ C.ClientSet.Count

/-- The fields that `ProcessIncoming` leaves alone. -/
def IncomingFrame (C D : posix_net_context) : Prop :=
  D.Allocator.Capacity = C.Allocator.Capacity ∧ D.Allocator.Length = C.Allocator.Length ∧
  D.CommandRing = C.CommandRing ∧ D.ReceiveBuffer = C.ReceiveBuffer ∧
  D.CommandReadBuffer = C.CommandReadBuffer ∧ D.IncomingReadBuffer = C.IncomingReadBuffer ∧
  D.ClientSet = C.ClientSet ∧ D.HostFD = C.HostFD ∧ D.WakeReadFD = C.WakeReadFD ∧
  D.WakeWriteFD = C.WakeWriteFD ∧ D.ReadFDMax = C.ReadFDMax ∧ D.Mode = C.Mode ∧
  D.WakePending = C.WakePending ∧ D.SocketCalls = C.SocketCalls

/-! ## Concrete values on which the statements are evaluated -/

/-- A choice of the header constants: messages start with their type tag, 1 for
a reply and 2 for an order; a freed registry slot keeps its identifier. -/
def SampleHeaders : net_headers :=
  { NET_COMMAND_MAX_LENGTH := 64
    NET_MESSAGE_MAX_LENGTH := 32
    POSIX_NET_CLIENT_SET_MAX := 2
    ClientInBufferLength := 64
    UnserializeNetMessageType := fun Message => Message.headD 0
    ValidateNetMessageType := fun MessageType => MessageType == 1 || MessageType == 2
    net_message_type_reply := 1
    net_message_type_order := 2
    OrderNetMessageCells := fun Message => Message.drop 1
    ValidateOrderNetMessage := fun Order => decide (Order.length ≤ 8)
    IDAfterDestroy := fun IDs Index => IDs.getD Index 0 }

/-- An engine with an empty registry: listening handle 3, wake pipe 4 and 5; the
storage of both queues lies outside the arena. -/
def SampleContext : posix_net_context :=
  { Allocator := { Capacity := 1024, Length := 0, Memory := List.replicate 1024 0 }
    CommandRing := { ChunkCapacity := 2, ByteCapacity := 200, Chunks := [], Storage := none }
    EventRing := { ChunkCapacity := 4, ByteCapacity := 200, Chunks := [], Storage := none }
    ReceiveBuffer := 64
    CommandReadBuffer := 64
    IncomingReadBuffer := 32
    ClientSet := InitPosixNetClientSet
    HostFD := 3
    WakeReadFD := 4
    WakeWriteFD := 5
    ReadFDMax := 4
    Mode := .net_mode_running
    WakePending := 0
    SocketCalls := [] }

/-- System call results of an iteration in which nothing is readable. -/
def SampleEnv : posix_env :=
  { SelectResult := 1
    Ready := []
    Receive := fun _ => (0, [])
    Close := fun _ => 0
    Shutdown := fun _ => 0
    WakeRead := 1
    Accept := 6 }

/-- A client with identifier 1 on handle 6 and an empty byte stream buffer of
64 bytes. -/
def SampleClient : posix_net_client :=
  { ID := 1, FD := 6, InBuffer := { Capacity := 64, ReadPos := 0, Data := [] } }

/-- System call results of an iteration in which the listening handle 3 is
readable and `accept` returns handle 6. -/
def SampleAcceptEnv : posix_env :=
  { SampleEnv with Ready := [3] }

/-- The state after `InitPosixNet` (sample headers, wake pipe 4 and 5, listening
socket 3) and one iteration of `RunPosixNet` that accepts a client on handle 6. -/
def SampleAcceptedContext : posix_net_context :=
  { Allocator := { Capacity := 1024*1024*5, Length := 1024*100, Memory := [0, 1] }
    CommandRing := { ChunkCapacity := 50, ByteCapacity := 1024*100, Chunks := [], Storage := some 0 }
    EventRing :=
      { ChunkCapacity := 50, ByteCapacity := 1024*100, Chunks := [ConnectNetEventCells 1],
        Storage := none }
    ReceiveBuffer := 1024*10
    CommandReadBuffer := 64
    IncomingReadBuffer := 32
    ClientSet := { Clients := [SampleClient], NextID := 2 }
    HostFD := 3
    WakeReadFD := 4
    WakeWriteFD := 5
    ReadFDMax := 6
    Mode := .net_mode_running
    WakePending := 0
    SocketCalls := [] }

/-- An engine with two clients (1 on handle 6, 2 on handle 7) and three queued
commands: a Send to the unregistered ClientID 9, a Broadcast to 2, 9 and 1, and
a Send to 1. -/
def SampleCommandContext : posix_net_context :=
  { SampleContext with
    CommandRing :=
      { ChunkCapacity := 4, ByteCapacity := 200, Storage := none,
        Chunks := [NetCommandCells (.send 9 [72]), NetCommandCells (.broadcast [2, 9, 1] [72, 73]),
          NetCommandCells (.send 1 [74])] }
    ClientSet :=
      { Clients :=
          [{ ID := 1, FD := 6, InBuffer := { Capacity := 64, ReadPos := 0, Data := [] } },
           { ID := 2, FD := 7, InBuffer := { Capacity := 64, ReadPos := 0, Data := [] } }]
        NextID := 3 }
    ReadFDMax := 7 }

/-- The sample engine with one registered client, 1 on handle 6. -/
def SampleOneClientContext : posix_net_context :=
  { SampleContext with
    ClientSet := { Clients := [SampleClient], NextID := 2 }
    ReadFDMax := 6 }

/-- System call results of an iteration in which handle 6 is readable and its
read fails with -1. -/
def SampleFailedReadEnv : posix_env :=
  { SampleEnv with Ready := [6], Receive := fun _ => (-1, []) }

/-- The sample engine laid out as `InitPosixNet` does: the storage of the
command queue is the block of 200 cells at the start of the arena and the cursor
stands behind it. -/
def SampleArenaQueueContext : posix_net_context :=
  { SampleContext with
    Allocator := { Capacity := 1024, Length := 200, Memory := List.replicate 1024 0 }
    CommandRing := { ChunkCapacity := 2, ByteCapacity := 200, Chunks := [], Storage := some 0 } }

/-- The sample engine with a command queue that is full (two chunks of two). -/
def SampleFullContext : posix_net_context :=
  { SampleContext with
    CommandRing :=
      { ChunkCapacity := 2, ByteCapacity := 200, Chunks := [[2], [2]], Storage := none } }

/-! ## Theorems -/

theorem foldl_CheckNewReadFD (L : List posix_net_client) (C : posix_net_context) :
    L.foldl (fun C Client => CheckNewReadFD C Client.FD) C =
      { C with ReadFDMax := L.foldl (fun M Client => max M Client.FD) C.ReadFDMax } := by
  induction L generalizing C with
  | nil => rfl
  | cons c L ih =>
    simp only [List.foldl]
    rw [ih]
    rfl

theorem foldl_max_spec (L : List posix_net_client) (M : Int) :
    M ≤ L.foldl (fun M Client => max M Client.FD) M ∧
    (∀ Client ∈ L, Client.FD ≤ L.foldl (fun M Client => max M Client.FD) M) ∧
    (L.foldl (fun M Client => max M Client.FD) M = M ∨
      ∃ Client ∈ L, L.foldl (fun M Client => max M Client.FD) M = Client.FD) := by
  induction L generalizing M with
  | nil => simp
  | cons c L ih =>
    simp only [List.foldl, List.mem_cons, forall_eq_or_imp, exists_eq_or_imp]
    obtain ⟨h1, h2, h3⟩ := ih (max M c.FD)
    refine ⟨le_trans (le_max_left _ _) h1, ⟨le_trans (le_max_right _ _) h1, h2⟩, ?_⟩
    rcases h3 with h3 | ⟨d, hd, h3⟩
    · rcases max_choice M c.FD with h | h
      · left; rw [h3, h]
      · right; left; rw [h3, h]
    · right; right; exact ⟨d, hd, h3⟩

theorem RecalcReadFDMax_eq (C : posix_net_context) :
    RecalcReadFDMax C =
      { C with ReadFDMax := max (max (C.ClientSet.Clients.foldl (fun M Client => max M Client.FD) 0) C.WakeReadFD) C.HostFD } := by
  unfold RecalcReadFDMax
  simp only []
  rw [foldl_CheckNewReadFD]
  rfl

theorem RecalcReadFDMax_isHandleMax (C : posix_net_context) :
    IsHandleMax (RecalcReadFDMax C) (RecalcReadFDMax C).ReadFDMax := by
  rw [RecalcReadFDMax_eq]
  obtain ⟨h1, h2, h3⟩ := foldl_max_spec C.ClientSet.Clients 0
  simp only [IsHandleMax]
  refine ⟨?_, ?_, le_max_right _ _, le_trans (le_max_right _ _) (le_max_left _ _), ?_⟩
  · rcases max_choice (max (C.ClientSet.Clients.foldl (fun M Client => max M Client.FD) 0) C.WakeReadFD) C.HostFD with h | h
    · rcases max_choice (C.ClientSet.Clients.foldl (fun M Client => max M Client.FD) 0) C.WakeReadFD with g | g
      · rcases h3 with h3 | ⟨d, hd, h3⟩
        · left; rw [h, g, h3]
        · right; right; right; exact ⟨d, hd, by rw [h, g, h3]⟩
      · right; right; left; rw [h, g]
    · right; left; exact h
  · exact le_trans h1 (le_trans (le_max_left _ _) (le_max_left _ _))
  · intro c hc
    exact le_trans (h2 c hc) (le_trans (le_max_left _ _) (le_max_left _ _))
@[simp] theorem Assert_eq_some (b : Bool) (u : Unit) : Assert b = some u ↔ b = true := by
  cases b <;> simp [Assert]

@[simp] theorem Assert_true : Assert true = some () := rfl

theorem CommandsFrame_refl (C : posix_net_context) : CommandsFrame C C := by
  simp [CommandsFrame]

theorem CommandsFrame_trans {C D E : posix_net_context} (h1 : CommandsFrame C D)
    (h2 : CommandsFrame D E) : CommandsFrame C E := by
  simp only [CommandsFrame] at *
  obtain ⟨a1, a2, a3, a4, a5, a6, a7, a8, a9, a10, a11⟩ := h1
  obtain ⟨b1, b2, b3, b4, b5, b6, b7, b8, b9, b10, b11⟩ := h2
  exact ⟨b1.trans a1, b2.trans a2, b3.trans a3, b4.trans a4, b5.trans a5, b6.trans a6,
    b7.trans a7, b8.trans a8, b9.trans a9, b10.trans a10, b11.trans a11⟩

theorem BroadcastToClients_frame (Message : List Nat) (IDs : List Nat) (C : posix_net_context) :
    CommandsFrame C (BroadcastToClients Message IDs C) ∧
    (BroadcastToClients Message IDs C).Mode = C.Mode ∧
    (BroadcastToClients Message IDs C).CommandRing = C.CommandRing := by
  induction IDs generalizing C with
  | nil => simp [BroadcastToClients, CommandsFrame]
  | cons ID Rest ih =>
    simp only [BroadcastToClients]
    split
    · rename_i Client _
      obtain ⟨h1, h2, h3⟩ := ih (PosixNetSendPacket C Client.FD Message)
      exact ⟨CommandsFrame_trans (by simp [CommandsFrame, PosixNetSendPacket]) h1, h2, h3⟩
    · exact ih C

theorem ShutdownClients_frame (Env : posix_env) (L : List posix_net_client)
    (C D : posix_net_context) (h : ShutdownClients Env L C = some D) :
    CommandsFrame C D ∧ D.Mode = C.Mode ∧ D.CommandRing = C.CommandRing := by
  induction L generalizing C with
  | nil =>
    simp only [ShutdownClients, Option.some.injEq] at h
    subst h
    simp [CommandsFrame]
  | cons Client Rest ih =>
    simp only [ShutdownClients, Option.bind_eq_bind, Option.bind_eq_some] at h
    obtain ⟨_, _, h⟩ := h
    obtain ⟨h1, h2, h3⟩ := ih _ h
    exact ⟨CommandsFrame_trans (by simp [CommandsFrame]) h1, h2, h3⟩

theorem ProcessCommandsLoop_frame (Env : posix_env) (Fuel : Nat) (C D : posix_net_context)
    (h : ProcessCommandsLoop Env Fuel C = some D) : CommandsFrame C D := by
  induction Fuel generalizing C with
  | zero => simp [ProcessCommandsLoop] at h
  | succ Fuel ih =>
    simp only [ProcessCommandsLoop] at h
    split at h
    · simp at h
    · rename_i Command CommandRing _
      split at h
      · simp only [Option.some.injEq] at h
        subst h
        simp [CommandsFrame]
      · split at h
        · exact CommandsFrame_trans
            (CommandsFrame_trans (by simp [CommandsFrame]) (BroadcastToClients_frame _ _ _).1) (ih _ h)
        · split at h
          · exact CommandsFrame_trans (by simp [CommandsFrame, PosixNetSendPacket]) (ih _ h)
          · exact CommandsFrame_trans (by simp [CommandsFrame]) (ih _ h)
        · split at h
          · simp at h
          · rename_i Context2 hs
            exact CommandsFrame_trans
              (CommandsFrame_trans (CommandsFrame_trans (by simp [CommandsFrame])
                (ShutdownClients_frame _ _ _ _ hs).1) (by simp [CommandsFrame])) (ih _ h)
        · simp at h
theorem SerializeInto_eq_some (Cells : List Nat) (A : linear_allocator) (h : Cells.length ≤ A.Capacity - A.Length) :
    SerializeInto Cells A = some (Cells, { Capacity := A.Capacity, Length := A.Length + Cells.length, Memory := WriteMemory A.Memory A.Length Cells }) := by
  simp [SerializeInto, LinearAllocate, GetLinearAllocatorFree, h]

theorem SerializeInto_some (Cells : List Nat) (A : linear_allocator) (R : List Nat × linear_allocator)
    (h : SerializeInto Cells A = some R) :
    Cells.length ≤ A.Capacity - A.Length ∧
    R = (Cells, { Capacity := A.Capacity, Length := A.Length + Cells.length, Memory := WriteMemory A.Memory A.Length Cells }) := by
  by_cases hc : Cells.length ≤ A.Capacity - A.Length
  · rw [SerializeInto_eq_some _ _ hc] at h
    exact ⟨hc, (Option.some.inj h).symm⟩
  · simp [SerializeInto, LinearAllocate, GetLinearAllocatorFree, hc] at h

@[simp] theorem ScratchWritten_Capacity (A : linear_allocator) (Cells : List Nat) :
    (ScratchWritten A Cells).Capacity = A.Capacity := rfl

@[simp] theorem ScratchWritten_Length (A : linear_allocator) (Cells : List Nat) :
    (ScratchWritten A Cells).Length = A.Length := rfl

@[simp] theorem EventWritten_Allocator (C : posix_net_context) (Cells : List Nat) :
    (EventWritten C Cells).Allocator = ScratchWritten C.Allocator Cells := rfl

@[simp] theorem EventWritten_EventRing (C : posix_net_context) (Cells : List Nat) :
    (EventWritten C Cells).EventRing = (ChunkRingBufferWrite C.EventRing Cells).2 := rfl

@[simp] theorem EventWritten_CommandRing (C : posix_net_context) (Cells : List Nat) :
    (EventWritten C Cells).CommandRing = C.CommandRing := rfl

@[simp] theorem EventWritten_ReceiveBuffer (C : posix_net_context) (Cells : List Nat) :
    (EventWritten C Cells).ReceiveBuffer = C.ReceiveBuffer := rfl

@[simp] theorem EventWritten_CommandReadBuffer (C : posix_net_context) (Cells : List Nat) :
    (EventWritten C Cells).CommandReadBuffer = C.CommandReadBuffer := rfl

@[simp] theorem EventWritten_IncomingReadBuffer (C : posix_net_context) (Cells : List Nat) :
    (EventWritten C Cells).IncomingReadBuffer = C.IncomingReadBuffer := rfl

@[simp] theorem EventWritten_ClientSet (C : posix_net_context) (Cells : List Nat) :
    (EventWritten C Cells).ClientSet = C.ClientSet := rfl

@[simp] theorem EventWritten_HostFD (C : posix_net_context) (Cells : List Nat) :
    (EventWritten C Cells).HostFD = C.HostFD := rfl

@[simp] theorem EventWritten_WakeReadFD (C : posix_net_context) (Cells : List Nat) :
    (EventWritten C Cells).WakeReadFD = C.WakeReadFD := rfl

@[simp] theorem EventWritten_WakeWriteFD (C : posix_net_context) (Cells : List Nat) :
    (EventWritten C Cells).WakeWriteFD = C.WakeWriteFD := rfl

@[simp] theorem EventWritten_ReadFDMax (C : posix_net_context) (Cells : List Nat) :
    (EventWritten C Cells).ReadFDMax = C.ReadFDMax := rfl

@[simp] theorem EventWritten_Mode (C : posix_net_context) (Cells : List Nat) :
    (EventWritten C Cells).Mode = C.Mode := rfl

@[simp] theorem EventWritten_WakePending (C : posix_net_context) (Cells : List Nat) :
    (EventWritten C Cells).WakePending = C.WakePending := rfl

@[simp] theorem EventWritten_SocketCalls (C : posix_net_context) (Cells : List Nat) :
    (EventWritten C Cells).SocketCalls = C.SocketCalls := rfl

/-- What `WriteNetEvent` returns for a serialization of `Cells` when it returns. -/
theorem WriteNetEvent_some (Cells : List Nat) (C D : posix_net_context)
    (h : WriteNetEvent (SerializeInto Cells) C = some D) :
    NET_EVENT_MAX_LENGTH ≤ C.Allocator.Capacity - C.Allocator.Length ∧
    Cells.length ≤ C.Allocator.Capacity - C.Allocator.Length ∧
    D = EventWritten C Cells := by
  simp only [WriteNetEvent, Option.bind_eq_bind, Option.bind_eq_some, Assert_eq_some,
    decide_eq_true_eq, GetLinearAllocatorFree] at h
  obtain ⟨_, h1, R, h2, h3⟩ := h
  obtain ⟨h4, rfl⟩ := SerializeInto_some _ _ _ h2
  refine ⟨h1, h4, ?_⟩
  simp only [Option.some.injEq] at h3
  rw [← h3]
  rfl

theorem WriteNetEvent_eq_some (Cells : List Nat) (C : posix_net_context)
    (h1 : NET_EVENT_MAX_LENGTH ≤ C.Allocator.Capacity - C.Allocator.Length)
    (h2 : Cells.length ≤ C.Allocator.Capacity - C.Allocator.Length) :
    WriteNetEvent (SerializeInto Cells) C = some (EventWritten C Cells) := by
  simp only [WriteNetEvent, Option.bind_eq_bind, GetLinearAllocatorFree, ge_iff_le, h1,
    decide_True, Assert_true, Option.some_bind, SerializeInto_eq_some _ _ h2]
  rfl

theorem CheckIncomingMessage_some (H : net_headers) (Message : List Nat) (A B : linear_allocator)
    (h : CheckIncomingMessage H Message A = some B) :
    B.Capacity = A.Capacity ∧ B.Length = A.Length := by
  simp only [CheckIncomingMessage] at h
  split at h
  · simp at h
  · split at h
    · simp only [Option.some.injEq] at h; subst h; simp
    · split at h
      · split at h
        · simp at h
        · rename_i hs
          split at h
          · simp at h
          · simp only [Option.some.injEq] at h
            subst h
            obtain ⟨_, hr⟩ := SerializeInto_some _ _ _ hs
            simp only [Prod.mk.injEq] at hr
            obtain ⟨_, rfl⟩ := hr
            simp [ReleaseLinearAllocatorCheckpoint, CreateLinearAllocatorCheckpoint]
      · simp at h

theorem ProcessIncomingLoop_frame (H : net_headers) (Fuel : Nat) (C : posix_net_context)
    (Client : posix_net_client) (D : posix_net_context) (Client1 : posix_net_client)
    (h : ProcessIncomingLoop H Fuel C Client = some (D, Client1)) :
    IncomingFrame C D ∧ Client1.ID = Client.ID ∧ Client1.FD = Client.FD ∧
      Client1.InBuffer.Capacity = Client.InBuffer.Capacity := by
  induction Fuel generalizing C Client with
  | zero => simp [ProcessIncomingLoop] at h
  | succ Fuel ih =>
    simp only [ProcessIncomingLoop] at h
    split at h
    · simp only [Option.some.injEq, Prod.mk.injEq] at h
      obtain ⟨rfl, rfl⟩ := h
      simp [IncomingFrame]
    · split at h
      · simp at h
      · rename_i A1 hA
        split at h
        · simp at h
        · rename_i C1 hC
          obtain ⟨hcap, hlen⟩ := CheckIncomingMessage_some _ _ _ _ hA
          obtain ⟨_, _, rfl⟩ := WriteNetEvent_some _ _ _ hC
          obtain ⟨h1, h2, h3, h4⟩ := ih _ _ h
          simp only [IncomingFrame, ByteRingBufferReadAdvance, EventWritten_Allocator,
            ScratchWritten_Capacity, ScratchWritten_Length, EventWritten_CommandRing,
            EventWritten_ReceiveBuffer, EventWritten_CommandReadBuffer,
            EventWritten_IncomingReadBuffer, EventWritten_ClientSet, EventWritten_HostFD,
            EventWritten_WakeReadFD, EventWritten_WakeWriteFD, EventWritten_ReadFDMax,
            EventWritten_Mode, EventWritten_WakePending, EventWritten_SocketCalls] at h1 h2 h3 h4 ⊢
          simp only [h1, h2, h3, h4, hcap, hlen, and_self]
theorem IsHandleMax_congr {C D : posix_net_context} {M : Int}
    (h1 : D.HostFD = C.HostFD) (h2 : D.WakeReadFD = C.WakeReadFD)
    (h3 : D.ClientSet.Clients.map (fun Client => Client.FD) =
      C.ClientSet.Clients.map (fun Client => Client.FD))
    (h : IsHandleMax C M) : IsHandleMax D M := by
  have hm : ∀ F : Int, (∃ Client ∈ D.ClientSet.Clients, F = Client.FD) ↔
      (∃ Client ∈ C.ClientSet.Clients, F = Client.FD) := by
    intro F
    have e1 : (∃ Client ∈ D.ClientSet.Clients, F = Client.FD) ↔
        F ∈ D.ClientSet.Clients.map (fun Client => Client.FD) := by
      simp only [List.mem_map]; constructor
      · rintro ⟨c, hc, rfl⟩; exact ⟨c, hc, rfl⟩
      · rintro ⟨c, hc, rfl⟩; exact ⟨c, hc, rfl⟩
    have e2 : (∃ Client ∈ C.ClientSet.Clients, F = Client.FD) ↔
        F ∈ C.ClientSet.Clients.map (fun Client => Client.FD) := by
      simp only [List.mem_map]; constructor
      · rintro ⟨c, hc, rfl⟩; exact ⟨c, hc, rfl⟩
      · rintro ⟨c, hc, rfl⟩; exact ⟨c, hc, rfl⟩
    rw [e1, e2, h3]
  obtain ⟨a, b, c, d, e⟩ := h
  refine ⟨?_, b, h1 ▸ c, h2 ▸ d, ?_⟩
  · rw [h1, h2, hm]; exact a
  · intro Client hc
    obtain ⟨c0, hc0, he⟩ := (hm Client.FD).1 ⟨Client, hc, rfl⟩
    rw [he]; exact e c0 hc0

theorem ServiceClientsLoop_isHandleMax (H : net_headers) (Env : posix_env) (FDSet : List Int)
    (Fuel Index : Nat) (C D : posix_net_context) (hC : IsHandleMax C C.ReadFDMax)
    (h : ServiceClientsLoop H Env FDSet Fuel Index C = some D) : IsHandleMax D D.ReadFDMax := by
  induction Fuel generalizing C Index with
  | zero => simp [ServiceClientsLoop] at h
  | succ Fuel ih =>
    simp only [ServiceClientsLoop] at h
    split at h
    · simp only [Option.some.injEq] at h; subst h; exact hC
    · split at h
      · split at h
        · split at h
          · simp at h
          · exact ih _ _ (RecalcReadFDMax_isHandleMax _) h
        · split at h
          · simp at h
          · exact ih _ _ (RecalcReadFDMax_isHandleMax _) h
      · exact ih _ _ (RecalcReadFDMax_isHandleMax _) h

theorem ServiceWake_frame (Env : posix_env) (FDSet : List Int) (C D : posix_net_context)
    (h : ServiceWake Env FDSet C = some D) :
    D.ClientSet = C.ClientSet ∧ D.HostFD = C.HostFD ∧ D.WakeReadFD = C.WakeReadFD ∧
    D.ReadFDMax = C.ReadFDMax ∧ D.EventRing = C.EventRing ∧ D.Allocator = C.Allocator := by
  simp only [ServiceWake] at h
  split at h
  · simp only [Option.bind_eq_bind, Option.bind_eq_some] at h
    obtain ⟨_, _, h⟩ := h
    have hf := ProcessCommandsLoop_frame _ _ _ _ h
    simp only [CommandsFrame] at hf
    obtain ⟨a1, a2, a3, a4, a5, a6, a7, a8, a9, a10, a11⟩ := hf
    exact ⟨a6, a7, a8, a10, a2, a1⟩
  · simp only [Option.some.injEq] at h; subst h; simp

theorem CheckNewReadFD_isHandleMax (H : net_headers) (D : posix_net_context) (ClientFD : Int)
    (hD : IsHandleMax D D.ReadFDMax) :
    IsHandleMax (CheckNewReadFD { D with ClientSet := (CreateClient H D.ClientSet ClientFD).2 } ClientFD)
      (CheckNewReadFD { D with ClientSet := (CreateClient H D.ClientSet ClientFD).2 } ClientFD).ReadFDMax := by
  obtain ⟨a, b, c, d, e⟩ := hD
  simp only [IsHandleMax, CheckNewReadFD, CreateClient, List.mem_append, List.mem_singleton]
  refine ⟨?_, le_trans b (le_max_left _ _), le_trans c (le_max_left _ _),
    le_trans d (le_max_left _ _), ?_⟩
  · rcases max_choice D.ReadFDMax ClientFD with hm | hm
    · rw [hm]
      rcases a with a | a | a | ⟨c0, hc0, a⟩
      · exact Or.inl a
      · exact Or.inr (Or.inl a)
      · exact Or.inr (Or.inr (Or.inl a))
      · exact Or.inr (Or.inr (Or.inr ⟨c0, Or.inl hc0, a⟩))
    · rw [hm]
      exact Or.inr (Or.inr (Or.inr ⟨_, Or.inr rfl, rfl⟩))
  · rintro c0 (hc0 | rfl)
    · exact le_trans (e c0 hc0) (le_max_left _ _)
    · exact le_max_right _ _

/-- What the accept part of an iteration returns when it returns. -/
theorem ServiceAccept_some (H : net_headers) (Env : posix_env) (FDSet : List Int)
    (C D : posix_net_context) (h : ServiceAccept H Env FDSet C = some D) :
    (AcceptCondition H FDSet C = true ∧ Env.Accept ≠ -1 ∧
      NET_EVENT_MAX_LENGTH ≤ C.Allocator.Capacity - C.Allocator.Length ∧
      D = EventWritten
        (CheckNewReadFD { C with ClientSet := (CreateClient H C.ClientSet Env.Accept).2 } Env.Accept)
        (ConnectNetEventCells C.ClientSet.NextID)) ∨
    (AcceptCondition H FDSet C = false ∧ D = C) := by
  simp only [ServiceAccept] at h
  split at h
  · rename_i hc
    simp only [Option.bind_eq_bind, Option.bind_eq_some, Assert_eq_some, decide_eq_true_eq] at h
    obtain ⟨_, h1, h⟩ := h
    obtain ⟨h2, _, rfl⟩ := WriteNetEvent_some _ _ _ h
    exact Or.inl ⟨hc, h1, h2, rfl⟩
  · rename_i hc
    simp only [Option.some.injEq] at h
    exact Or.inr ⟨by simpa using hc, h.symm⟩

theorem ServiceAccept_isHandleMax (H : net_headers) (Env : posix_env) (FDSet : List Int)
    (C D : posix_net_context) (hC : IsHandleMax C C.ReadFDMax)
    (h : ServiceAccept H Env FDSet C = some D) : IsHandleMax D D.ReadFDMax := by
  rcases ServiceAccept_some _ _ _ _ _ h with ⟨_, _, _, rfl⟩ | ⟨_, rfl⟩
  · exact IsHandleMax_congr rfl rfl rfl (CheckNewReadFD_isHandleMax H C Env.Accept hC)
  · exact hC

theorem RunPosixNetIteration_isHandleMax (H : net_headers) (Env : posix_env)
    (C D : posix_net_context) (hC : IsHandleMax C C.ReadFDMax)
    (h : RunPosixNetIteration H Env C = some D) : IsHandleMax D D.ReadFDMax := by
  simp only [RunPosixNetIteration] at h
  split at h
  · simp at h
  rename_i C3 hs
  simp only [Option.some.injEq] at h
  subst h
  simp only [RunPosixNetServices, select, Option.bind_eq_bind, Option.bind_eq_some] at hs
  obtain ⟨_, _, C1, h1, C2, h2, h3⟩ := hs
  have i1 := ServiceClientsLoop_isHandleMax _ _ _ _ _ _ _ hC h1
  obtain ⟨f1, f2, f3, f4, _, _⟩ := ServiceWake_frame _ _ _ _ h2
  have i2 : IsHandleMax C2 C2.ReadFDMax := by
    rw [f4]; exact IsHandleMax_congr f2 f3 (by rw [f1]) i1
  have i3 := ServiceAccept_isHandleMax _ _ _ _ _ i2 h3
  have hs : (CheckStopped C3).ReadFDMax = C3.ReadFDMax := by
    simp only [CheckStopped]; split <;> [split; skip] <;> rfl
  rw [hs]
  refine IsHandleMax_congr ?_ ?_ ?_ i3 <;> (simp only [CheckStopped]; split <;> [split; skip] <;> rfl)
theorem RunPosixNetLoop_isHandleMax (H : net_headers) (Envs : List posix_env)
    (C D : posix_net_context) (hC : IsHandleMax C C.ReadFDMax)
    (h : RunPosixNetLoop H Envs C = some D) : IsHandleMax D D.ReadFDMax := by
  induction Envs generalizing C with
  | nil => simp only [RunPosixNetLoop, Option.some.injEq] at h; subst h; exact hC
  | cons Env Rest ih =>
    simp only [RunPosixNetLoop] at h
    split at h
    · simp only [Option.some.injEq] at h; subst h; exact hC
    · split at h
      · simp at h
      · rename_i C1 h1
        exact ih _ (RunPosixNetIteration_isHandleMax _ _ _ _ hC h1) h

theorem InitPosixNet_isHandleMax (H : net_headers) (Mode0 : net_mode) (ArenaMemory : List Nat)
    (WakeFDs : Int × Int) (HostSocket BindResult ListenResult : Int) (C : posix_net_context)
    (h : InitPosixNet H Mode0 ArenaMemory WakeFDs HostSocket BindResult ListenResult = some C) :
    IsHandleMax C C.ReadFDMax := by
  simp only [InitPosixNet, Option.bind_eq_bind, Option.bind_eq_some] at h
  obtain ⟨_, _, _, _, _, _, _, _, h⟩ := h
  simp only [Option.some.injEq] at h
  subst h
  simp only [IsHandleMax, InitPosixNetClientSet, List.not_mem_nil, false_and, exists_false,
    or_false, IsEmpty.forall_iff, implies_true, and_true]
  refine ⟨?_, le_trans (le_max_left _ _) (le_max_left _ _), le_max_right _ _,
    le_trans (le_max_right _ _) (le_max_left _ _)⟩
  rcases max_choice (max (0 : Int) WakeFDs.1) HostSocket with h | h
  · rcases max_choice (0 : Int) WakeFDs.1 with g | g
    · left; rw [h, g]
    · right; right; rw [h, g]
  · right; left; exact h

theorem IsHandleMax_fdset (C : posix_net_context) (h : IsHandleMax C C.ReadFDMax) :
    ∀ FD ∈ BuildFDSet C, FD < C.ReadFDMax + 1 := by
  obtain ⟨_, _, c, d, e⟩ := h
  intro FD hFD
  simp only [BuildFDSet, List.mem_append, List.mem_map, List.mem_cons, List.mem_singleton,
    List.not_mem_nil, or_false] at hFD
  rcases hFD with ⟨c0, hc0, rfl⟩ | rfl | rfl
  · exact Int.lt_add_one_iff.2 (e c0 hc0)
  · exact Int.lt_add_one_iff.2 c
  · exact Int.lt_add_one_iff.2 d

/-- C10: in every state that the engine loop reaches from `InitPosixNet`, at the
moment `select` is called `ReadFDMax` is the maximum of 0, the listening handle,
the wake read handle and the handles of the registered clients, so every handle
of the readiness set is below the bound `ReadFDMax+1`; `RecalcReadFDMax`
establishes this from any prior value (changing nothing else), and accepting a
client with `CheckNewReadFD` and destroying one followed by `RecalcReadFDMax`
preserve it. -/
theorem C10_ReadFDMax_invariant (H : net_headers) (Mode0 : net_mode) (ArenaMemory : List Nat)
    (WakeFDs : Int × Int) (HostSocket BindResult ListenResult : Int) (Envs : List posix_env)
    (C : posix_net_context)
    (h : (InitPosixNet H Mode0 ArenaMemory WakeFDs HostSocket BindResult ListenResult).bind
      (RunPosixNet H Envs) = some C) :
    (IsHandleMax C C.ReadFDMax ∧ ∀ FD ∈ BuildFDSet C, FD < C.ReadFDMax + 1) ∧
    (∀ (D : posix_net_context) (Prior : Int),
      IsHandleMax D (RecalcReadFDMax { D with ReadFDMax := Prior }).ReadFDMax ∧
      RecalcReadFDMax { D with ReadFDMax := Prior } =
        { D with ReadFDMax := (RecalcReadFDMax { D with ReadFDMax := Prior }).ReadFDMax }) ∧
    (∀ (D : posix_net_context) (ClientFD : Int), IsHandleMax D D.ReadFDMax →
      IsHandleMax (CheckNewReadFD { D with ClientSet := (CreateClient H D.ClientSet ClientFD).2 } ClientFD)
        (CheckNewReadFD { D with ClientSet := (CreateClient H D.ClientSet ClientFD).2 } ClientFD).ReadFDMax) ∧
    (∀ (D : posix_net_context) (Index : Nat),
      IsHandleMax (RecalcReadFDMax { D with ClientSet := DestroyClient D.ClientSet Index })
        (RecalcReadFDMax { D with ClientSet := DestroyClient D.ClientSet Index }).ReadFDMax) := by
  refine ⟨?_, ?_, ?_, ?_⟩
  · simp only [Option.bind_eq_some] at h
    obtain ⟨C0, h0, h1⟩ := h
    have i0 := InitPosixNet_isHandleMax _ _ _ _ _ _ _ _ h0
    have i1 : IsHandleMax { C0 with Mode := net_mode.net_mode_running } C0.ReadFDMax :=
      IsHandleMax_congr rfl rfl rfl i0
    have i2 := RunPosixNetLoop_isHandleMax _ _ _ _ i1 h1
    exact ⟨i2, IsHandleMax_fdset _ i2⟩
  · intro D Prior
    have hr := RecalcReadFDMax_isHandleMax { D with ReadFDMax := Prior }
    refine ⟨?_, ?_⟩
    · refine @IsHandleMax_congr (RecalcReadFDMax { D with ReadFDMax := Prior }) D _ ?_ ?_ ?_ hr <;>
        rw [RecalcReadFDMax_eq]
    · rw [RecalcReadFDMax_eq]
  · intro D ClientFD hD
    exact CheckNewReadFD_isHandleMax H D ClientFD hD
  · intro D Index
    exact RecalcReadFDMax_isHandleMax _
theorem C10_ReadFDMax_invariant_witness :
    (InitPosixNet SampleHeaders .net_mode_stopped [] (4, 5) 3 0 0).bind
      (RunPosixNet SampleHeaders [SampleAcceptEnv]) = some SampleAcceptedContext ∧
    IsHandleMax SampleAcceptedContext SampleAcceptedContext.ReadFDMax ∧
    ∀ FD ∈ BuildFDSet SampleAcceptedContext, FD < SampleAcceptedContext.ReadFDMax + 1 :=
  ⟨by decide, (C10_ReadFDMax_invariant SampleHeaders .net_mode_stopped [] (4, 5) 3 0 0
    [SampleAcceptEnv] SampleAcceptedContext (by decide)).1⟩

theorem ServiceFrame_refl (C : posix_net_context) : ServiceFrame C C := by
  simp [ServiceFrame]

theorem ServiceFrame_trans {C D E : posix_net_context} (h1 : ServiceFrame C D)
    (h2 : ServiceFrame D E) : ServiceFrame C E := by
  simp only [ServiceFrame] at *
  obtain ⟨a1, a2, a3, a4, a5, a6, a7, a8, a9, a10, a11, a12, a13⟩ := h1
  obtain ⟨b1, b2, b3, b4, b5, b6, b7, b8, b9, b10, b11, b12, b13⟩ := h2
  exact ⟨b1.trans a1, b2.trans a2, b3.trans a3, b4.trans a4, b5.trans a5, b6.trans a6,
    b7.trans a7, b8.trans a8, b9.trans a9, b10.trans a10, b11.trans a11, b12.trans a12,
    le_trans b13 a13⟩

theorem RecalcReadFDMax_serviceFrame (C : posix_net_context) : ServiceFrame C (RecalcReadFDMax C) := by
  rw [RecalcReadFDMax_eq]
  simp [ServiceFrame]

theorem DestroyClient_count (Set : posix_net_client_set) (Index : Nat) :
    (DestroyClient Set Index).Count ≤ Set.Count ∧ (DestroyClient Set Index).NextID = Set.NextID := by
  simp only [DestroyClient, posix_net_client_set.Count, List.length_eraseIdx, and_true]
  split <;> omega

theorem DisconnectClient_some (H : net_headers) (Env : posix_env) (C D : posix_net_context)
    (Index : Nat) (Client : posix_net_client)
    (h : DisconnectClient H Env C Index Client = some D) :
    Env.Close Client.FD ≠ -1 ∧
    NET_EVENT_MAX_LENGTH ≤ C.Allocator.Capacity - C.Allocator.Length ∧
    D = EventWritten
      { C with
        ClientSet := DestroyClient C.ClientSet Index
        SocketCalls := C.SocketCalls ++ [.close Client.FD] }
      (DisconnectNetEventCells
        (H.IDAfterDestroy (C.ClientSet.Clients.map (fun Registered => Registered.ID)) Index)) := by
  simp only [DisconnectClient, Option.bind_eq_bind, Option.bind_eq_some, Assert_eq_some,
    decide_eq_true_eq] at h
  obtain ⟨_, h1, h2⟩ := h
  obtain ⟨h3, _, rfl⟩ := WriteNetEvent_some _ _ _ h2
  exact ⟨h1, h3, rfl⟩

theorem ReceiveFromClient_some (H : net_headers) (C D : posix_net_context) (Index : Nat)
    (Client : posix_net_client) (Result : Int) (ReceiveBuffer : List Nat)
    (h : ReceiveFromClient H C Index Client Result ReceiveBuffer = some D) :
    ∃ C1 Client2,
      ProcessIncoming H C { Client with InBuffer := ByteRingBufferWrite Client.InBuffer { Addr := ReceiveBuffer, Length := ToMemsize Result } } = some (C1, Client2) ∧
      D = { C1 with ClientSet := { C1.ClientSet with Clients := C1.ClientSet.Clients.set Index Client2 } } := by
  simp only [ReceiveFromClient, ReceiveInput] at h
  split at h
  · simp at h
  · rename_i C1 Client2 h1
    simp only [Option.some.injEq] at h
    exact ⟨C1, Client2, h1, h.symm⟩

theorem ServiceClientsLoop_frame (H : net_headers) (Env : posix_env) (FDSet : List Int)
    (Fuel Index : Nat) (C D : posix_net_context)
    (h : ServiceClientsLoop H Env FDSet Fuel Index C = some D) : ServiceFrame C D := by
  induction Fuel generalizing C Index with
  | zero => simp [ServiceClientsLoop] at h
  | succ Fuel ih =>
    simp only [ServiceClientsLoop] at h
    split at h
    · simp only [Option.some.injEq] at h; subst h; exact ServiceFrame_refl _
    · rename_i Client _
      split at h
      · split at h
        · split at h
          · simp at h
          · rename_i C1 h1
            obtain ⟨_, _, rfl⟩ := DisconnectClient_some _ _ _ _ _ _ h1
            refine ServiceFrame_trans ?_ (ServiceFrame_trans (RecalcReadFDMax_serviceFrame _) (ih _ _ h))
            have hd := DestroyClient_count C.ClientSet Index
            simp only [ServiceFrame, EventWritten_Allocator, ScratchWritten_Capacity,
              ScratchWritten_Length, EventWritten_CommandRing, EventWritten_ReceiveBuffer,
              EventWritten_CommandReadBuffer, EventWritten_IncomingReadBuffer, EventWritten_HostFD,
              EventWritten_WakeReadFD, EventWritten_WakeWriteFD, EventWritten_Mode,
              EventWritten_WakePending, EventWritten_ClientSet, hd.1, hd.2, true_and, and_self]
        · split at h
          · simp at h
          · rename_i C1 h1
            obtain ⟨C2, Client2, h2, rfl⟩ := ReceiveFromClient_some _ _ _ _ _ _ _ h1
            obtain ⟨hf, _⟩ := ProcessIncomingLoop_frame _ _ _ _ _ _ h2
            refine ServiceFrame_trans ?_ (ServiceFrame_trans (RecalcReadFDMax_serviceFrame _) (ih _ _ h))
            simp only [IncomingFrame] at hf
            obtain ⟨a1, a2, a3, a4, a5, a6, a7, a8, a9, a10, a11, a12, a13, a14⟩ := hf
            simp only [ServiceFrame, posix_net_client_set.Count, List.length_set, a1, a2, a3, a4,
              a5, a6, a7, a8, a9, a10, a12, a13, true_and, le_refl, and_true]
      · exact ServiceFrame_trans (RecalcReadFDMax_serviceFrame _) (ih _ _ h)
theorem ShutdownClients_eq_some (Env : posix_env) (L : List posix_net_client) (C : posix_net_context)
    (h : ∀ Client ∈ L, Env.Shutdown Client.FD = 0) :
    ShutdownClients Env L C =
      some { C with SocketCalls := C.SocketCalls ++ L.map (fun Client => socket_call.shutdown Client.FD) } := by
  induction L generalizing C with
  | nil => simp [ShutdownClients]
  | cons Client Rest ih =>
    have h0 : Env.Shutdown Client.FD = 0 := h Client (List.mem_cons_self _ _)
    simp only [ShutdownClients, h0, decide_True, Assert_true, Option.bind_eq_bind, Option.some_bind]
    rw [ih _ (fun c hc => h c (List.mem_cons_of_mem _ hc))]
    simp

theorem ProcessCommandsLoop_mode (Env : posix_env) (Fuel : Nat) (C D : posix_net_context)
    (h : ProcessCommandsLoop Env Fuel C = some D) :
    D.Mode = C.Mode ∨ D.Mode = .net_mode_disconnecting := by
  induction Fuel generalizing C with
  | zero => simp [ProcessCommandsLoop] at h
  | succ Fuel ih =>
    simp only [ProcessCommandsLoop] at h
    split at h
    · simp at h
    · split at h
      · simp only [Option.some.injEq] at h
        subst h
        exact Or.inl rfl
      · split at h
        · have := ih _ h
          rwa [(BroadcastToClients_frame _ _ _).2.1] at this
        · split at h
          · have g := ih _ h
            exact g
          · have g := ih _ h
            exact g
        · split at h
          · simp at h
          · rcases ih _ h with g | g
            · exact Or.inr g
            · exact Or.inr g
        · simp at h

theorem ServiceWake_mode (Env : posix_env) (FDSet : List Int) (C D : posix_net_context)
    (h : ServiceWake Env FDSet C = some D) :
    D.Mode = C.Mode ∨ D.Mode = .net_mode_disconnecting := by
  simp only [ServiceWake] at h
  split at h
  · simp only [Option.bind_eq_bind, Option.bind_eq_some] at h
    obtain ⟨_, _, h⟩ := h
    have g := ProcessCommandsLoop_mode _ _ _ _ h
    exact g
  · simp only [Option.some.injEq] at h; subst h; exact Or.inl rfl

theorem ServiceAccept_mode (H : net_headers) (Env : posix_env) (FDSet : List Int)
    (C D : posix_net_context) (h : ServiceAccept H Env FDSet C = some D) : D.Mode = C.Mode := by
  rcases ServiceAccept_some _ _ _ _ _ h with ⟨_, _, _, rfl⟩ | ⟨_, rfl⟩ <;> rfl

theorem RunPosixNetServices_mode (H : net_headers) (Env : posix_env) (C D : posix_net_context)
    (h : RunPosixNetServices H Env C = some D) :
    D.Mode = C.Mode ∨ D.Mode = .net_mode_disconnecting := by
  simp only [RunPosixNetServices, select, Option.bind_eq_bind, Option.bind_eq_some] at h
  obtain ⟨_, _, C1, h1, C2, h2, h3⟩ := h
  have m1 := (ServiceClientsLoop_frame _ _ _ _ _ _ _ h1).2.2.2.2.2.2.2.2.2.1
  have m2 := ServiceWake_mode _ _ _ _ h2
  have m3 := ServiceAccept_mode _ _ _ _ _ h3
  rw [m3]
  rw [m1] at m2
  exact m2

theorem CheckStopped_mode (D : posix_net_context) :
    ((CheckStopped D).Mode = .net_mode_stopped ↔
      (D.Mode = .net_mode_disconnecting ∧ D.ClientSet.Count = 0) ∨ D.Mode = .net_mode_stopped) ∧
    (¬ (D.Mode = .net_mode_disconnecting ∧ D.ClientSet.Count = 0) → CheckStopped D = D) ∧
    (CheckStopped D = D ∨ CheckStopped D = { D with Mode := .net_mode_stopped }) := by
  simp only [CheckStopped]
  by_cases h1 : D.Mode = .net_mode_disconnecting
  · by_cases h2 : D.ClientSet.Count = 0
    · simp [h1, h2]
    · simp [h1, h2]
  · simp [h1]

theorem ProcessCommandsLoop_shutdown (Env : posix_env) (Fuel : Nat) (C : posix_net_context)
    (Rest : List (List Nat))
    (hq : C.CommandRing.Chunks = NetCommandCells .shutdown :: Rest)
    (hb : 1 ≤ C.CommandReadBuffer)
    (hs : ∀ Client ∈ C.ClientSet.Clients, Env.Shutdown Client.FD = 0) :
    ProcessCommandsLoop Env (Fuel + 1) C =
      ProcessCommandsLoop Env Fuel
        { C with
          CommandRing := { C.CommandRing with Chunks := Rest }
          SocketCalls := C.SocketCalls ++
            C.ClientSet.Clients.map (fun Client => socket_call.shutdown Client.FD)
          Mode := .net_mode_disconnecting } := by
  simp only [ProcessCommandsLoop, ChunkRingBufferCopyRead, hq, NetCommandCells, List.length_singleton,
    hb, if_true, UnserializeNetCommandType, List.headD_cons]
  rw [ShutdownClients_eq_some _ _ _ hs]
  simp
/-- C4: the mode is a state machine Running -> Draining -> Stopped.  Processing
a Shutdown command calls `shutdown` on the handle of every registered client and
sets the mode to Draining; in an iteration started in a mode other than Stopped
the services keep the mode or move Running to Draining, never Draining to
Running; the mode becomes Stopped exactly in the last `if` of an iteration in
which the mode is Draining and the registry count is 0, and nothing else
changes there; the loop runs another iteration if and only if the mode is not
Stopped, so Stopped is never left. -/
theorem C4_mode_state_machine (H : net_headers) (Env : posix_env) (C : posix_net_context) :
    (∀ (Fuel : Nat) (Rest : List (List Nat)),
      C.CommandRing.Chunks = NetCommandCells .shutdown :: Rest →
      1 ≤ C.CommandReadBuffer →
      (∀ Client ∈ C.ClientSet.Clients, Env.Shutdown Client.FD = 0) →
      ProcessCommandsLoop Env (Fuel + 1) C =
        ProcessCommandsLoop Env Fuel
          { C with
            CommandRing := { C.CommandRing with Chunks := Rest }
            SocketCalls := C.SocketCalls ++
              C.ClientSet.Clients.map (fun Client => socket_call.shutdown Client.FD)
            Mode := .net_mode_disconnecting }) ∧
    (∀ D : posix_net_context, C.Mode ≠ .net_mode_stopped → RunPosixNetServices H Env C = some D →
      RunPosixNetIteration H Env C = some (CheckStopped D) ∧
      (D.Mode = C.Mode ∨ (C.Mode = .net_mode_running ∧ D.Mode = .net_mode_disconnecting)) ∧
      ((CheckStopped D).Mode = .net_mode_stopped ↔
        (D.Mode = .net_mode_disconnecting ∧ D.ClientSet.Count = 0)) ∧
      (CheckStopped D = D ∨ CheckStopped D = { D with Mode := .net_mode_stopped }) ∧
      (C.Mode = .net_mode_disconnecting → (CheckStopped D).Mode ≠ .net_mode_running)) ∧
    (∀ Rest : List posix_env,
      RunPosixNetLoop H (Env :: Rest) C =
        if C.Mode = .net_mode_stopped then some C
        else (RunPosixNetIteration H Env C).bind (RunPosixNetLoop H Rest)) ∧
    (∀ Envs : List posix_env, C.Mode = .net_mode_stopped → RunPosixNetLoop H Envs C = some C) := by
  refine ⟨?_, ?_, ?_, ?_⟩
  · intro Fuel Rest hq hb hs
    exact ProcessCommandsLoop_shutdown Env Fuel C Rest hq hb hs
  · intro D hC hD
    have hm := RunPosixNetServices_mode _ _ _ _ hD
    have hc := CheckStopped_mode D
    have hD1 : D.Mode ≠ .net_mode_stopped := by
      rcases hm with g | g
      · rw [g]; exact hC
      · rw [g]; decide
    refine ⟨by simp [RunPosixNetIteration, hD], ?_, ?_, hc.2.2, ?_⟩
    · rcases hm with g | g
      · exact Or.inl g
      · cases hmode : C.Mode
        · exact Or.inr ⟨rfl, g⟩
        · exact Or.inl g
        · exact absurd hmode hC
    · rw [hc.1]
      constructor
      · rintro (g | g)
        · exact g
        · exact absurd g hD1
      · exact Or.inl
    · intro hdis
      have hD2 : D.Mode = .net_mode_disconnecting := by
        rcases hm with g | g
        · rw [g, hdis]
        · exact g
      rcases hc.2.2 with g | g
      · rw [g, hD2]; decide
      · rw [g]; exact fun hne => net_mode.noConfusion hne
  · intro Rest
    simp only [RunPosixNetLoop]
    split
    · rfl
    · cases RunPosixNetIteration H Env C <;> rfl
  · intro Envs hs
    cases Envs with
    | nil => rfl
    | cons E Rest => simp [RunPosixNetLoop, hs]

theorem C4_mode_state_machine_witness :
    RunPosixNetIteration SampleHeaders SampleEnv { SampleContext with Mode := .net_mode_disconnecting } =
      some (CheckStopped { SampleContext with Mode := .net_mode_disconnecting }) ∧
    (CheckStopped { SampleContext with Mode := .net_mode_disconnecting }).Mode = .net_mode_stopped :=
  have h := (C4_mode_state_machine SampleHeaders SampleEnv
    { SampleContext with Mode := .net_mode_disconnecting }).2.1
    { SampleContext with Mode := .net_mode_disconnecting } (by decide) (by rfl)
  ⟨h.1, h.2.2.1.2 ⟨rfl, rfl⟩⟩
theorem ChunkRingBufferWrite_room (R : chunk_ring_buffer) (Chunk : List Nat)
    (h : ChunkRingBufferHasRoom R Chunk.length = true) :
    (ChunkRingBufferWrite R Chunk).2 = { R with Chunks := R.Chunks ++ [Chunk] } := by
  simp [ChunkRingBufferWrite, h]

theorem ChunkRingBufferWrite_full (R : chunk_ring_buffer) (Chunk : List Nat)
    (h : ChunkRingBufferHasRoom R Chunk.length = false) :
    ChunkRingBufferWrite R Chunk = (false, R) := by
  simp [ChunkRingBufferWrite, h]

theorem AcceptCondition_iff (H : net_headers) (FDSet : List Int) (C : posix_net_context) :
    AcceptCondition H FDSet C = true ↔
      (C.HostFD ∈ FDSet ∧ C.ClientSet.Count ≠ H.POSIX_NET_CLIENT_SET_MAX ∧
        C.Mode = .net_mode_running) := by
  simp [AcceptCondition, FD_ISSET, and_assoc]

theorem ServiceAccept_eq_some (H : net_headers) (Env : posix_env) (FDSet : List Int)
    (C : posix_net_context) (hc : AcceptCondition H FDSet C = true) (ha : Env.Accept ≠ -1)
    (hf : NET_EVENT_MAX_LENGTH ≤ C.Allocator.Capacity - C.Allocator.Length) :
    ServiceAccept H Env FDSet C = some (EventWritten
        (CheckNewReadFD { C with ClientSet := (CreateClient H C.ClientSet Env.Accept).2 } Env.Accept)
        (ConnectNetEventCells C.ClientSet.NextID)) := by
  simp only [ServiceAccept, hc, if_true, ha, ne_eq, not_false_eq_true, decide_True, Assert_true,
    Option.bind_eq_bind, Option.some_bind]
  exact WriteNetEvent_eq_some _ _ hf (le_trans (by simp [ConnectNetEventCells, NET_EVENT_MAX_LENGTH]) hf)

theorem CheckStopped_ClientSet (D : posix_net_context) : (CheckStopped D).ClientSet = D.ClientSet := by
  simp only [CheckStopped]; split <;> [split; skip] <;> rfl

theorem RunPosixNetIteration_count (H : net_headers) (Env : posix_env) (C D : posix_net_context)
    (h : RunPosixNetIteration H Env C = some D)
    (hC : C.ClientSet.Count ≤ H.POSIX_NET_CLIENT_SET_MAX) :
    D.ClientSet.Count ≤ H.POSIX_NET_CLIENT_SET_MAX := by
  simp only [RunPosixNetIteration] at h
  split at h
  · simp at h
  rename_i C3 hs
  simp only [Option.some.injEq] at h
  subst h
  simp only [RunPosixNetServices, select, Option.bind_eq_bind, Option.bind_eq_some] at hs
  obtain ⟨_, _, C1, h1, C2, h2, h3⟩ := hs
  have m1 := (ServiceClientsLoop_frame _ _ _ _ _ _ _ h1).2.2.2.2.2.2.2.2.2.2.2.2
  have m2 := (ServiceWake_frame _ _ _ _ h2).1
  rw [CheckStopped_ClientSet]
  rcases ServiceAccept_some _ _ _ _ _ h3 with ⟨hc, _, _, rfl⟩ | ⟨_, rfl⟩
  · rw [AcceptCondition_iff] at hc
    have hne := hc.2.1
    rw [m2] at hne
    simp only [EventWritten_ClientSet, CheckNewReadFD, CreateClient, posix_net_client_set.Count,
      List.length_append, List.length_singleton]
    rw [m2]
    simp only [posix_net_client_set.Count] at hne m1 hC
    omega
  · rw [m2]; exact le_trans m1 hC

theorem RunPosixNetLoop_count (H : net_headers) (Envs : List posix_env) (C D : posix_net_context)
    (h : RunPosixNetLoop H Envs C = some D)
    (hC : C.ClientSet.Count ≤ H.POSIX_NET_CLIENT_SET_MAX) :
    D.ClientSet.Count ≤ H.POSIX_NET_CLIENT_SET_MAX := by
  induction Envs generalizing C with
  | nil => simp only [RunPosixNetLoop, Option.some.injEq] at h; subst h; exact hC
  | cons Env Rest ih =>
    simp only [RunPosixNetLoop] at h
    split at h
    · simp only [Option.some.injEq] at h; subst h; exact hC
    · split at h
      · simp at h
      · rename_i C1 h1
        exact ih _ h (RunPosixNetIteration_count _ _ _ _ h1 hC)

/-- C5: the accept part of an iteration registers a client if and only if the
listening handle is in the readiness set, the registry count is not
`POSIX_NET_CLIENT_SET_MAX` and the mode, after the commands of this iteration,
is Running.  Then exactly one client, with the next identifier, is appended and
the Connect event with that identifier is written to the event queue; otherwise
nothing changes, in particular while Draining or Stopped.  No other part of the
iteration adds a client, and the registry count never exceeds the capacity. -/
theorem C5_accept_gate (H : net_headers) (Env : posix_env) (FDSet : List Int)
    (C : posix_net_context) :
    (AcceptCondition H FDSet C = true ↔
      (C.HostFD ∈ FDSet ∧ C.ClientSet.Count ≠ H.POSIX_NET_CLIENT_SET_MAX ∧
        C.Mode = .net_mode_running)) ∧
    (AcceptCondition H FDSet C = false → ServiceAccept H Env FDSet C = some C) ∧
    (AcceptCondition H FDSet C = true → Env.Accept ≠ -1 →
      NET_EVENT_MAX_LENGTH ≤ C.Allocator.Capacity - C.Allocator.Length →
      ∃ D, ServiceAccept H Env FDSet C = some D ∧
        D.ClientSet.Clients = C.ClientSet.Clients ++
          [{ ID := C.ClientSet.NextID, FD := Env.Accept,
             InBuffer := { Capacity := H.ClientInBufferLength, ReadPos := 0, Data := [] } }] ∧
        D.EventRing = (ChunkRingBufferWrite C.EventRing (ConnectNetEventCells C.ClientSet.NextID)).2 ∧
        (ChunkRingBufferHasRoom C.EventRing (ConnectNetEventCells C.ClientSet.NextID).length = true →
          D.EventRing.Chunks = C.EventRing.Chunks ++ [ConnectNetEventCells C.ClientSet.NextID])) ∧
    (∀ D : posix_net_context, RunPosixNetServices H Env C = some D →
      ∃ C1 C2, ServiceClients H Env (select Env (C.ReadFDMax + 1) (BuildFDSet C)).2 C = some C1 ∧
        C1.ClientSet.Count ≤ C.ClientSet.Count ∧
        ServiceWake Env (select Env (C.ReadFDMax + 1) (BuildFDSet C)).2 C1 = some C2 ∧
        C2.ClientSet = C1.ClientSet ∧
        ServiceAccept H Env (select Env (C.ReadFDMax + 1) (BuildFDSet C)).2 C2 = some D) ∧
    (∀ (Envs : List posix_env) (D : posix_net_context), RunPosixNetLoop H Envs C = some D →
      C.ClientSet.Count ≤ H.POSIX_NET_CLIENT_SET_MAX →
      D.ClientSet.Count ≤ H.POSIX_NET_CLIENT_SET_MAX) := by
  refine ⟨AcceptCondition_iff H FDSet C, ?_, ?_, ?_, ?_⟩
  · intro hc
    simp [ServiceAccept, hc]
  · intro hc ha hf
    refine ⟨_, ServiceAccept_eq_some H Env FDSet C hc ha hf, rfl, rfl, ?_⟩
    intro hr
    show (ChunkRingBufferWrite C.EventRing (ConnectNetEventCells C.ClientSet.NextID)).2.Chunks = _
    rw [ChunkRingBufferWrite_room _ _ hr]
  · intro D hs
    simp only [RunPosixNetServices, Option.bind_eq_bind, Option.bind_eq_some] at hs
    obtain ⟨_, _, C1, h1, C2, h2, h3⟩ := hs
    exact ⟨C1, C2, h1, (ServiceClientsLoop_frame _ _ _ _ _ _ _ h1).2.2.2.2.2.2.2.2.2.2.2.2, h2,
      (ServiceWake_frame _ _ _ _ h2).1, h3⟩
  · intro Envs D h hC
    exact RunPosixNetLoop_count H Envs C D h hC

theorem C5_accept_gate_witness :
    ∃ D, ServiceAccept SampleHeaders SampleEnv [3] SampleContext = some D ∧
      D.ClientSet.Clients = SampleContext.ClientSet.Clients ++
        [{ ID := 1, FD := 6, InBuffer := { Capacity := 64, ReadPos := 0, Data := [] } }] ∧
      D.EventRing = (ChunkRingBufferWrite SampleContext.EventRing (ConnectNetEventCells 1)).2 ∧
      (ChunkRingBufferHasRoom SampleContext.EventRing (ConnectNetEventCells 1).length = true →
        D.EventRing.Chunks = SampleContext.EventRing.Chunks ++ [ConnectNetEventCells 1]) :=
  (C5_accept_gate SampleHeaders SampleEnv [3] SampleContext).2.2.1 (by decide) (by decide) (by decide)
theorem NetCommandCells_length_pos (Command : net_command) : (NetCommandCells Command).length ≠ 0 := by
  cases Command <;> simp [NetCommandCells]

theorem UnserializeBroadcastNetCommand_cells (IDs Message : List Nat) :
    UnserializeBroadcastNetCommand (NetCommandCells (.broadcast IDs Message)) = (IDs, Message) := by
  have e1 : NetCommandCells (.broadcast IDs Message) =
      0 :: IDs.length :: (IDs ++ Message.length :: Message) := by simp [NetCommandCells]
  have e2 : List.drop (2 + IDs.length) (0 :: IDs.length :: (IDs ++ Message.length :: Message)) =
      Message.length :: Message := by
    rw [Nat.add_comm]; simp [List.drop_succ_cons]
  have e3 : List.drop (3 + IDs.length) (0 :: IDs.length :: (IDs ++ Message.length :: Message)) =
      Message := by
    rw [Nat.add_comm]
    show List.drop (IDs.length + 1) (IDs ++ Message.length :: Message) = Message
    rw [List.drop_append_eq_append_drop]
    simp
  simp only [UnserializeBroadcastNetCommand, e1, e2, e3, List.drop_succ_cons, List.drop_zero,
    List.headD_cons, List.take_left', List.take_length]

theorem UnserializeSendNetCommand_cells (ID : Nat) (Message : List Nat) :
    UnserializeSendNetCommand (NetCommandCells (.send ID Message)) = (ID, Message) := by
  simp [UnserializeSendNetCommand, NetCommandCells]

theorem BroadcastToClients_eq (Message : List Nat) (IDs : List Nat) (C : posix_net_context) :
    BroadcastToClients Message IDs C =
      { C with SocketCalls := C.SocketCalls ++ ReferencePackets C.ClientSet (.broadcast IDs Message) } := by
  induction IDs generalizing C with
  | nil => simp [BroadcastToClients, ReferencePackets]
  | cons ID Rest ih =>
    simp only [BroadcastToClients]
    cases hf : FindClientByID C.ClientSet ID with
    | none =>
      simp only [ih, ReferencePackets, List.filterMap_cons, hf, Option.map_none']
    | some Client =>
      simp only [ih, ReferencePackets, List.filterMap_cons, hf, Option.map_some', PosixNetSendPacket,
        List.append_assoc, List.singleton_append]

/-- Effect of one command on the context, apart from the command queue. -/
theorem ProcessCommandsLoop_step (Env : posix_env) (Fuel : Nat) (C : posix_net_context)
    (Command : net_command) (Rest : List (List Nat))
    (hq : C.CommandRing.Chunks = NetCommandCells Command :: Rest)
    (hb : (NetCommandCells Command).length ≤ C.CommandReadBuffer)
    (hs : Command = .shutdown → ∀ Client ∈ C.ClientSet.Clients, Env.Shutdown Client.FD = 0) :
    ProcessCommandsLoop Env (Fuel + 1) C =
      ProcessCommandsLoop Env Fuel
        { C with
          CommandRing := { C.CommandRing with Chunks := Rest }
          SocketCalls := C.SocketCalls ++ ReferenceCalls C.ClientSet Command
          Mode := if Command = .shutdown then .net_mode_disconnecting else C.Mode } := by
  cases Command with
  | shutdown =>
    rw [ProcessCommandsLoop_shutdown Env Fuel C Rest hq (by simpa [NetCommandCells] using hb) (hs rfl)]
    simp [ReferenceCalls]
  | send ID Message =>
    simp only [ProcessCommandsLoop, ChunkRingBufferCopyRead, hq, hb, if_true,
      NetCommandCells_length_pos, if_false, UnserializeSendNetCommand_cells]
    have ht : UnserializeNetCommandType (NetCommandCells (.send ID Message)) =
        some .net_command_type_send := by simp [UnserializeNetCommandType, NetCommandCells]
    simp only [ht]
    cases hf : FindClientByID C.ClientSet ID <;>
      simp [ReferenceCalls, ReferencePackets, hf, PosixNetSendPacket]
  | broadcast IDs Message =>
    simp only [ProcessCommandsLoop, ChunkRingBufferCopyRead, hq, hb, if_true,
      NetCommandCells_length_pos, if_false, UnserializeBroadcastNetCommand_cells]
    have ht : UnserializeNetCommandType (NetCommandCells (.broadcast IDs Message)) =
        some .net_command_type_broadcast := by simp [UnserializeNetCommandType, NetCommandCells]
    simp only [ht, BroadcastToClients_eq]
    simp [ReferenceCalls]
theorem ProcessCommandsLoop_spec (Env : posix_env) (Commands : List net_command) (Fuel : Nat)
    (C : posix_net_context) (hF : Commands.length < Fuel)
    (hq : C.CommandRing.Chunks = Commands.map NetCommandCells)
    (hb : ∀ Command ∈ Commands, (NetCommandCells Command).length ≤ C.CommandReadBuffer)
    (hs : net_command.shutdown ∈ Commands →
      ∀ Client ∈ C.ClientSet.Clients, Env.Shutdown Client.FD = 0) :
    ProcessCommandsLoop Env Fuel C =
      some { C with
        CommandRing := { C.CommandRing with Chunks := [] }
        SocketCalls := C.SocketCalls ++ Commands.flatMap (ReferenceCalls C.ClientSet)
        Mode := if net_command.shutdown ∈ Commands then .net_mode_disconnecting else C.Mode } := by
  induction Commands generalizing C Fuel with
  | nil =>
    obtain ⟨F, rfl⟩ : ∃ F, Fuel = F + 1 := ⟨Fuel - 1, by simp at hF; omega⟩
    simp only [List.map_nil] at hq
    simp [ProcessCommandsLoop, ChunkRingBufferCopyRead, hq]
    rw [← hq]
  | cons Command Rest ih =>
    obtain ⟨F, rfl⟩ : ∃ F, Fuel = F + 1 := ⟨Fuel - 1, by simp at hF; omega⟩
    simp only [List.map_cons] at hq
    rw [ProcessCommandsLoop_step Env F C Command _ hq (hb _ (List.mem_cons_self _ _))
      (fun he => hs (he ▸ List.mem_cons_self _ _))]
    refine Eq.trans (ih F _ ?_ ?_ ?_ ?_) ?_
    · simpa using hF
    · rfl
    · exact fun c hc => hb c (List.mem_cons_of_mem _ hc)
    · exact fun hm => hs (List.mem_cons_of_mem _ hm)
    simp only [List.flatMap_cons, List.append_assoc, List.mem_cons]
    congr 2
    by_cases h1 : Command = .shutdown
    · simp [h1]
    · have h2 : ¬ (net_command.shutdown = Command) := fun h => h1 h.symm
      simp [h1, h2]
theorem ReferenceCalls_filter (Set : posix_net_client_set) (Command : net_command) :
    (ReferenceCalls Set Command).filter socket_call.isPacket = ReferencePackets Set Command := by
  cases Command with
  | shutdown =>
    simp only [ReferenceCalls, ReferencePackets, List.filter_eq_nil_iff, List.mem_map]
    rintro _ ⟨c, _, rfl⟩
    simp [socket_call.isPacket]
  | send ID Message =>
    simp only [ReferenceCalls, ReferencePackets]
    cases FindClientByID Set ID <;> simp [socket_call.isPacket]
  | broadcast IDs Message =>
    simp only [ReferenceCalls, ReferencePackets, List.filter_eq_self, List.mem_filterMap,
      Option.map_eq_some']
    rintro _ ⟨_, _, c, _, rfl⟩
    rfl

theorem flatMap_ReferenceCalls_filter (Set : posix_net_client_set) (Commands : List net_command) :
    (Commands.flatMap (ReferenceCalls Set)).filter socket_call.isPacket =
      Commands.flatMap (ReferencePackets Set) := by
  induction Commands with
  | nil => rfl
  | cons Command Rest ih =>
    simp only [List.flatMap_cons, List.filter_append, ih, ReferenceCalls_filter]

/-- C6: `ProcessCommands` reads every queued command, oldest first, until the
queue is empty, and the packets it sends are those of the reference, command by
command in queue order (for a Shutdown, the half-close of every client); it
writes no event and changes no part of the registry, and the mode changes only
by a Shutdown.  A Send or Broadcast that names only unregistered ClientIDs sends
nothing. -/
theorem C6_process_commands (Env : posix_env) (C : posix_net_context)
    (Commands : List net_command)
    (hq : C.CommandRing.Chunks = Commands.map NetCommandCells)
    (hb : ∀ Command ∈ Commands, (NetCommandCells Command).length ≤ C.CommandReadBuffer)
    (hs : net_command.shutdown ∈ Commands →
      ∀ Client ∈ C.ClientSet.Clients, Env.Shutdown Client.FD = 0) :
    (∃ D, ProcessCommands Env C = some D ∧
      D.CommandRing.Chunks = [] ∧
      D.SocketCalls = C.SocketCalls ++ Commands.flatMap (ReferenceCalls C.ClientSet) ∧
      D.SocketCalls.filter socket_call.isPacket =
        C.SocketCalls.filter socket_call.isPacket ++ Commands.flatMap (ReferencePackets C.ClientSet) ∧
      D.ClientSet = C.ClientSet ∧ D.EventRing = C.EventRing ∧
      D.Mode = (if net_command.shutdown ∈ Commands then .net_mode_disconnecting else C.Mode)) ∧
    (∀ (ID : Nat) (Message : List Nat), FindClientByID C.ClientSet ID = none →
      ReferenceCalls C.ClientSet (.send ID Message) = []) ∧
    (∀ (IDs : List Nat) (Message : List Nat), (∀ ID ∈ IDs, FindClientByID C.ClientSet ID = none) →
      ReferenceCalls C.ClientSet (.broadcast IDs Message) = []) := by
  refine ⟨⟨_, ProcessCommandsLoop_spec Env Commands _ C ?_ hq hb hs, rfl, rfl, ?_, rfl, rfl, rfl⟩, ?_, ?_⟩
  · rw [hq]; simp
  · simp only [List.filter_append, flatMap_ReferenceCalls_filter]
  · intro ID Message hf
    simp [ReferenceCalls, ReferencePackets, hf]
  · intro IDs Message hf
    simp only [ReferenceCalls, ReferencePackets, List.filterMap_eq_nil_iff, Option.map_eq_none']
    exact hf

theorem C6_process_commands_witness :
    ∃ D, ProcessCommands SampleEnv SampleCommandContext = some D ∧
      D.CommandRing.Chunks = [] ∧
      D.SocketCalls = SampleCommandContext.SocketCalls ++
        [.send_packet 7 [72, 73], .send_packet 6 [72, 73], .send_packet 6 [74]] ∧
      D.SocketCalls.filter socket_call.isPacket =
        SampleCommandContext.SocketCalls.filter socket_call.isPacket ++
        [.send_packet 7 [72, 73], .send_packet 6 [72, 73], .send_packet 6 [74]] ∧
      D.ClientSet = SampleCommandContext.ClientSet ∧ D.EventRing = SampleCommandContext.EventRing ∧
      D.Mode = .net_mode_running :=
  (C6_process_commands SampleEnv SampleCommandContext
    [.send 9 [72], .broadcast [2, 9, 1] [72, 73], .send 1 [74]] (by decide) (by decide)
    (by decide)).1
theorem SerializePacket_length (Message : List Nat) :
    (SerializePacket Message).length = POSIX_PACKET_HEADER_SIZE + Message.length := by
  simp only [SerializePacket, SerializePacketHeader, POSIX_PACKET_HEADER_SIZE, List.length_append,
    List.length_cons, List.length_nil]

theorem header_decode (N : Nat) (h : N < 65536) : N % 256 + 256 * (N / 256 % 256) = N := by
  omega

theorem PosixExtractPacketMessage_complete (Message Rest : List Nat) (h : Message.length < 65536) :
    PosixExtractPacketMessage (SerializePacket Message ++ Rest) = Message := by
  simp only [PosixExtractPacketMessage, SerializePacket, SerializePacketHeader,
    POSIX_PACKET_HEADER_SIZE, List.cons_append, List.nil_append, List.length_cons,
    List.length_append, List.headD_cons, List.tail_cons, header_decode _ h, List.drop_succ_cons,
    List.drop_zero, List.take_left']
  rw [if_neg (by omega), if_neg (by omega)]

theorem PosixExtractPacketMessage_peek (Message Rest : List Nat) (W : Nat)
    (h : Message.length < 65536) (hW : POSIX_PACKET_HEADER_SIZE + Message.length ≤ W) :
    PosixExtractPacketMessage ((SerializePacket Message ++ Rest).take W) = Message := by
  rw [List.take_append_eq_append_take, List.take_of_length_le (by rw [SerializePacket_length]; exact hW)]
  exact PosixExtractPacketMessage_complete _ _ h

theorem PosixExtractPacketMessage_incomplete (Message Rest V : List Nat)
    (h : Message.length < 65536) (hV : V <+: SerializePacket Message ++ Rest)
    (hl : V.length < POSIX_PACKET_HEADER_SIZE + Message.length) :
    PosixExtractPacketMessage V = [] := by
  simp only [PosixExtractPacketMessage]
  split
  · rfl
  · rename_i h2
    obtain ⟨T, hT⟩ := hV
    simp only [POSIX_PACKET_HEADER_SIZE] at h2 hl ⊢
    match V, h2, hl, hT with
    | a :: b :: V', _, hl, hT =>
      simp only [SerializePacket, SerializePacketHeader, List.cons_append, List.nil_append,
        List.cons.injEq] at hT
      obtain ⟨rfl, rfl, _⟩ := hT
      simp only [List.headD_cons, List.tail_cons, header_decode _ h, List.length_cons] at hl ⊢
      rw [if_pos (by omega)]
    | [a], h2, _, _ => simp at h2
    | [], h2, _, _ => simp at h2

theorem PosixExtractPacketMessage_incomplete_peek (Message Rest V : List Nat) (W : Nat)
    (h : Message.length < 65536) (hV : V <+: SerializePacket Message ++ Rest)
    (hl : V.length < POSIX_PACKET_HEADER_SIZE + Message.length) :
    PosixExtractPacketMessage (V.take W) = [] :=
  PosixExtractPacketMessage_incomplete Message Rest (V.take W) h
    ((List.take_prefix W V).trans hV) (lt_of_le_of_lt (by simp) hl)

theorem PosixExtractPacketMessage_nil (W : Nat) : PosixExtractPacketMessage (([] : List Nat).take W) = [] := by
  simp [PosixExtractPacketMessage, POSIX_PACKET_HEADER_SIZE]
theorem CheckIncomingMessage_accepted (H : net_headers) (Message : List Nat) (A : linear_allocator)
    (h : AcceptedMessage H (A.Capacity - A.Length) Message) :
    ∃ B, CheckIncomingMessage H Message A = some B ∧ B.Capacity = A.Capacity ∧ B.Length = A.Length := by
  obtain ⟨_, _, hv, ht, _, _⟩ := h
  simp only [CheckIncomingMessage, hv, Assert_true]
  rcases ht with ht | ⟨ht, hfit, hval⟩
  · exact ⟨A, by simp [ht], rfl, rfl⟩
  · by_cases hr : H.UnserializeNetMessageType Message = H.net_message_type_reply
    · exact ⟨A, by simp [hr], rfl, rfl⟩
    · have hr2 : ¬ H.net_message_type_order = H.net_message_type_reply := ht ▸ hr
      simp only [ht, hr2, if_false, if_true, UnserializeOrderNetMessage,
        SerializeInto_eq_some _ _ hfit, hval, Assert_true]
      exact ⟨_, rfl, rfl, rfl⟩

theorem WriteChunks_cons (R : chunk_ring_buffer) (Chunk : List Nat) (Chunks : List (List Nat)) :
    WriteChunks R (Chunk :: Chunks) = WriteChunks (ChunkRingBufferWrite R Chunk).2 Chunks := rfl

theorem ProcessIncomingLoop_packets (H : net_headers) (Ps : List (List Nat)) (Tail : List Nat)
    (Fuel : Nat) (C : posix_net_context) (Client : posix_net_client)
    (hF : Ps.length < Fuel)
    (hacc : ∀ p ∈ Ps, AcceptedMessage H (C.Allocator.Capacity - C.Allocator.Length) p)
    (hW : ∀ p ∈ Ps, POSIX_PACKET_HEADER_SIZE + p.length ≤ C.IncomingReadBuffer)
    (hdata : Client.InBuffer.Data = PacketStream Ps ++ Tail)
    (htail : PosixExtractPacketMessage (Tail.take C.IncomingReadBuffer) = []) :
    ∃ D Client1, ProcessIncomingLoop H Fuel C Client = some (D, Client1) ∧
      D.EventRing = WriteChunks C.EventRing (Ps.map (MessageNetEventCells Client.ID)) ∧
      Client1.InBuffer.Data = Tail := by
  induction Ps generalizing Fuel C Client with
  | nil =>
    obtain ⟨F, rfl⟩ : ∃ F, Fuel = F + 1 := ⟨Fuel - 1, by simp at hF; omega⟩
    simp only [PacketStream, List.map_nil, List.flatten_nil, List.nil_append] at hdata
    refine ⟨C, Client, ?_, rfl, hdata⟩
    simp [ProcessIncomingLoop, ByteRingBufferPeek, hdata, htail]
  | cons p Ps ih =>
    obtain ⟨F, rfl⟩ : ∃ F, Fuel = F + 1 := ⟨Fuel - 1, by simp at hF; omega⟩
    have hp := hacc p (List.mem_cons_self _ _)
    have hpW := hW p (List.mem_cons_self _ _)
    simp only [PacketStream, List.map_cons, List.flatten_cons, List.append_assoc] at hdata
    have hx : PosixExtractPacketMessage (ByteRingBufferPeek Client.InBuffer C.IncomingReadBuffer) = p := by
      simp only [ByteRingBufferPeek, hdata]
      exact PosixExtractPacketMessage_peek _ _ _ hp.2.1 hpW
    obtain ⟨B, hB, hBc, hBl⟩ := CheckIncomingMessage_accepted H p C.Allocator hp
    have hne : p.length ≠ 0 := by
      have := hp.1
      simpa using this
    have hw : WriteNetEvent (SerializeMessageNetEvent Client.ID p) { C with Allocator := B } =
        some (EventWritten { C with Allocator := B } (MessageNetEventCells Client.ID p)) := by
      refine WriteNetEvent_eq_some _ _ ?_ ?_
      · simp only [hBc, hBl]; exact hp.2.2.2.2.1
      · simp only [hBc, hBl, MessageNetEventCells, List.length_append, List.length_cons,
          List.length_nil]
        have := hp.2.2.2.2.2
        omega
    simp only [ProcessIncomingLoop, hx, hne, if_false, hB, hw]
    have := ih F (EventWritten { C with Allocator := B } (MessageNetEventCells Client.ID p))
      { Client with InBuffer := ByteRingBufferReadAdvance Client.InBuffer (POSIX_PACKET_HEADER_SIZE + p.length) }
      (by simpa using hF)
      (by
        intro q hq
        simp only [EventWritten_Allocator, ScratchWritten_Capacity, ScratchWritten_Length, hBc, hBl]
        exact hacc q (List.mem_cons_of_mem _ hq))
      (fun q hq => hW q (List.mem_cons_of_mem _ hq))
      (by
        simp only [ByteRingBufferReadAdvance, hdata]
        rw [← SerializePacket_length, List.drop_left]
        rfl)
      htail
    obtain ⟨D, Client1, h1, h2, h3⟩ := this
    exact ⟨D, Client1, h1, by rw [h2]; rfl, h3⟩
theorem PacketStream_cons (q : List Nat) (Qs : List (List Nat)) :
    PacketStream (q :: Qs) = SerializePacket q ++ PacketStream Qs := rfl

theorem PacketStream_append (Qs1 Qs2 : List (List Nat)) :
    PacketStream (Qs1 ++ Qs2) = PacketStream Qs1 ++ PacketStream Qs2 := by
  simp [PacketStream]

theorem PacketStream_length (Qs : List (List Nat)) : Qs.length ≤ (PacketStream Qs).length := by
  induction Qs with
  | nil => simp
  | cons q Qs ih =>
    rw [PacketStream_cons, List.length_append, SerializePacket_length]
    simp only [List.length_cons, POSIX_PACKET_HEADER_SIZE]
    omega

theorem PacketStream_split (Qs : List (List Nat)) (X : List Nat) (hX : X <+: PacketStream Qs) :
    ∃ Qs1 Qs2 Tail, Qs = Qs1 ++ Qs2 ∧ X = PacketStream Qs1 ++ Tail ∧
      Tail <+: PacketStream Qs2 ∧ PartialPacket Tail Qs2 := by
  induction Qs generalizing X with
  | nil =>
    refine ⟨[], [], [], rfl, ?_, List.prefix_refl _, rfl⟩
    simpa [PacketStream] using hX
  | cons q Qs ih =>
    by_cases hl : X.length < (SerializePacket q).length
    · exact ⟨[], q :: Qs, X, rfl, rfl, hX, hl⟩
    · rw [PacketStream_cons] at hX
      obtain ⟨T, hT⟩ := hX
      have hle : (SerializePacket q).length ≤ X.length := Nat.le_of_not_lt hl
      have h1 : SerializePacket q <+: X := by
        rw [List.prefix_iff_eq_take]
        have := congrArg (List.take (SerializePacket q).length) hT
        rw [List.take_append_of_le_length hle, List.take_left'] at this
        · exact this.symm
        · rfl
      obtain ⟨X1, rfl⟩ := h1
      rw [List.append_assoc] at hT
      have h2 : X1 <+: PacketStream Qs := ⟨T, List.append_cancel_left hT⟩
      obtain ⟨Qs1, Qs2, Tail, e1, e2, e3, e4⟩ := ih X1 h2
      refine ⟨q :: Qs1, Qs2, Tail, by rw [e1]; rfl, ?_, e3, e4⟩
      rw [PacketStream_cons, e2, List.append_assoc]
theorem PartialPacket_tail (H : net_headers) (Free W : Nat) (Tail : List Nat) (Qs : List (List Nat))
    (hacc : ∀ q ∈ Qs, AcceptedMessage H Free q)
    (hp : Tail <+: PacketStream Qs) (hq : PartialPacket Tail Qs) :
    PosixExtractPacketMessage (Tail.take W) = [] := by
  cases Qs with
  | nil =>
    simp only [PartialPacket] at hq
    subst hq
    exact PosixExtractPacketMessage_nil W
  | cons q Qs =>
    simp only [PartialPacket, SerializePacket_length] at hq
    exact PosixExtractPacketMessage_incomplete_peek q (PacketStream Qs) Tail W
      (hacc q (List.mem_cons_self _ _)).2.1 hp hq

theorem PartialPacket_length (W : Nat) (Data : List Nat) (Qs : List (List Nat))
    (hW : ∀ q ∈ Qs, POSIX_PACKET_HEADER_SIZE + q.length ≤ W) (hq : PartialPacket Data Qs) :
    Data.length ≤ W := by
  cases Qs with
  | nil => simp only [PartialPacket] at hq; subst hq; simp
  | cons q Qs =>
    simp only [PartialPacket, SerializePacket_length] at hq
    have := hW q (List.mem_cons_self _ _)
    omega

theorem WriteChunks_append (R : chunk_ring_buffer) (L1 L2 : List (List Nat)) :
    WriteChunks R (L1 ++ L2) = WriteChunks (WriteChunks R L1) L2 := by
  simp [WriteChunks, List.foldl_append]

theorem ReceiveReads_stream (H : net_headers) (Reads : List (List Nat)) (Qs : List (List Nat))
    (C : posix_net_context) (Client : posix_net_client)
    (hacc : ∀ q ∈ Qs, AcceptedMessage H (C.Allocator.Capacity - C.Allocator.Length) q)
    (hW : ∀ q ∈ Qs, POSIX_PACKET_HEADER_SIZE + q.length ≤ C.IncomingReadBuffer)
    (hcap : ∀ r ∈ Reads, C.IncomingReadBuffer + r.length ≤ Client.InBuffer.Capacity)
    (hstream : Client.InBuffer.Data ++ Reads.flatten = PacketStream Qs)
    (hpart : PartialPacket Client.InBuffer.Data Qs) :
    ∃ D Client1, ReceiveReads H Reads C Client = some (D, Client1) ∧
      D.EventRing = WriteChunks C.EventRing (Qs.map (MessageNetEventCells Client.ID)) ∧
      Client1.InBuffer.Data = [] ∧ IncomingFrame C D ∧ Client1.ID = Client.ID ∧
      Client1.FD = Client.FD := by
  induction Reads generalizing Qs C Client with
  | nil =>
    simp only [List.flatten_nil, List.append_nil] at hstream
    cases Qs with
    | nil =>
      simp only [PartialPacket] at hpart
      exact ⟨C, Client, rfl, rfl, hpart, by simp [IncomingFrame], rfl, rfl⟩
    | cons q Qs =>
      exfalso
      simp only [PartialPacket] at hpart
      rw [hstream, PacketStream_cons, List.length_append] at hpart
      omega
  | cons r Reads ih =>
    have hlen := PartialPacket_length _ _ _ hW hpart
    have hr := hcap r (List.mem_cons_self _ _)
    have hwrite : ByteRingBufferWrite Client.InBuffer { Addr := r, Length := r.length } =
        { Client.InBuffer with Data := Client.InBuffer.Data ++ r } := by
      simp only [ByteRingBufferWrite, List.take_length]
      rw [if_pos (by omega)]
    simp only [List.flatten_cons, ← List.append_assoc] at hstream
    obtain ⟨Qs1, Qs2, Tail, e1, e2, e3, e4⟩ :=
      PacketStream_split Qs (Client.InBuffer.Data ++ r) ⟨_, hstream⟩
    subst e1
    have hproc := ProcessIncomingLoop_packets H Qs1 Tail
      ((Client.InBuffer.Data ++ r).length + 1) C
      { Client with InBuffer := { Client.InBuffer with Data := Client.InBuffer.Data ++ r } }
      (by
        have := PacketStream_length Qs1
        rw [e2, List.length_append]
        omega)
      (fun q hq => hacc q (List.mem_append_left _ hq))
      (fun q hq => hW q (List.mem_append_left _ hq))
      e2
      (PartialPacket_tail H _ _ Tail Qs2 (fun q hq => hacc q (List.mem_append_right _ hq)) e3 e4)
    obtain ⟨D1, Client1, h1, h2, h3⟩ := hproc
    obtain ⟨f1, f2, f3, f4⟩ := ProcessIncomingLoop_frame _ _ _ _ _ _ h1
    have f1' := f1
    simp only [IncomingFrame] at f1
    obtain ⟨a1, a2, a3, a4, a5, a6, a7, a8, a9, a10, a11, a12, a13, a14⟩ := f1
    have hrest : Client1.InBuffer.Data ++ Reads.flatten = PacketStream Qs2 := by
      rw [h3]
      rw [e2, PacketStream_append, List.append_assoc] at hstream
      exact List.append_cancel_left hstream
    obtain ⟨D, Client2, g1, g2, g3, g4, g5, g6⟩ := ih Qs2 D1 Client1
      (by rw [a1, a2]; exact fun q hq => hacc q (List.mem_append_right _ hq))
      (by rw [a6]; exact fun q hq => hW q (List.mem_append_right _ hq))
      (by
        rw [a6, f4]
        exact fun r0 hr0 => hcap r0 (List.mem_cons_of_mem _ hr0))
      hrest (by rw [h3]; exact e4)
    refine ⟨D, Client2, ?_, ?_, g3, ?_, g5.trans f2, g6.trans f3⟩
    · simp only [ReceiveReads, ReceiveInput, ProcessIncoming, hwrite]
      rw [h1]
      exact g1
    · rw [g2, h2, List.map_append, WriteChunks_append, f2]
    · simp only [IncomingFrame] at g4 ⊢
      obtain ⟨b1, b2, b3, b4, b5, b6, b7, b8, b9, b10, b11, b12, b13, b14⟩ := g4
      exact ⟨b1.trans a1, b2.trans a2, b3.trans a3, b4.trans a4, b5.trans a5, b6.trans a6,
        b7.trans a7, b8.trans a8, b9.trans a9, b10.trans a10, b11.trans a11, b12.trans a12,
        b13.trans a13, b14.trans a14⟩
theorem WriteChunks_room (R : chunk_ring_buffer) (Chunks : List (List Nat))
    (h : HasRoomForAll R Chunks) :
    WriteChunks R Chunks = { R with Chunks := R.Chunks ++ Chunks } := by
  induction Chunks generalizing R with
  | nil => simp [WriteChunks]
  | cons c Chunks ih =>
    obtain ⟨h1, h2⟩ := h
    simp only [List.length_cons, List.map_cons, List.sum_cons] at h1 h2
    have hr : ChunkRingBufferHasRoom R c.length = true := by
      simp only [ChunkRingBufferHasRoom, Bool.and_eq_true, decide_eq_true_eq]
      constructor <;> omega
    rw [WriteChunks_cons, ChunkRingBufferWrite_room _ _ hr, ih]
    · simp
    · constructor
      · simp only [List.length_append, List.length_singleton]; omega
      · simp only [ChunkRingBufferUsed, List.map_append, List.sum_append, List.map_cons,
          List.map_nil, List.sum_cons, List.sum_nil] at h2 ⊢
        omega

/-- C1 (amended): for payloads that `ProcessIncoming` takes for messages (not
empty, valid type, fitting the read buffer and the arena) and every way of
splitting the byte stream of their packets into successive reads that fit the
client's buffer, appending each read and calling `ProcessIncoming` after each
one writes to the event queue exactly the Message events of these payloads, in
order and with the client's identifier, and leaves the byte stream buffer
empty. -/
theorem C1_framing_chunk_independent (H : net_headers) (C : posix_net_context)
    (Client : posix_net_client) (Payloads : List (List Nat)) (Reads : List (List Nat))
    (hempty : Client.InBuffer.Data = [])
    (hacc : ∀ p ∈ Payloads, AcceptedMessage H (C.Allocator.Capacity - C.Allocator.Length) p)
    (hW : ∀ p ∈ Payloads, POSIX_PACKET_HEADER_SIZE + p.length ≤ C.IncomingReadBuffer)
    (hcap : ∀ r ∈ Reads, C.IncomingReadBuffer + r.length ≤ Client.InBuffer.Capacity)
    (hsplit : Reads.flatten = PacketStream Payloads) :
    ∃ D Client1, ReceiveReads H Reads C Client = some (D, Client1) ∧
      D.EventRing = WriteChunks C.EventRing (Payloads.map (MessageNetEventCells Client.ID)) ∧
      (HasRoomForAll C.EventRing (Payloads.map (MessageNetEventCells Client.ID)) →
        D.EventRing.Chunks =
          C.EventRing.Chunks ++ Payloads.map (MessageNetEventCells Client.ID)) ∧
      Client1.InBuffer.Data = [] ∧ Client1.ID = Client.ID := by
  obtain ⟨D, Client1, h1, h2, h3, _, h5, _⟩ := ReceiveReads_stream H Reads Payloads C Client hacc hW
    hcap (by rw [hempty]; exact hsplit)
    (by
      rw [hempty]
      cases Payloads with
      | nil => rfl
      | cons p Ps => simp [PartialPacket, SerializePacket_length, POSIX_PACKET_HEADER_SIZE])
  refine ⟨D, Client1, h1, h2, ?_, h3, h5⟩
  intro hroom
  rw [h2, WriteChunks_room _ _ hroom]

theorem C1_framing_chunk_independent_witness :
    ∃ D Client1,
      ReceiveReads SampleHeaders [[5], [0, 1, 80], [73, 78, 71, 2], [0, 2, 9]] SampleContext
        SampleClient = some (D, Client1) ∧
      D.EventRing = WriteChunks SampleContext.EventRing
        ([[1, 80, 73, 78, 71], [2, 9]].map (MessageNetEventCells SampleClient.ID)) ∧
      (HasRoomForAll SampleContext.EventRing
          ([[1, 80, 73, 78, 71], [2, 9]].map (MessageNetEventCells SampleClient.ID)) →
        D.EventRing.Chunks = SampleContext.EventRing.Chunks ++
          [[1, 80, 73, 78, 71], [2, 9]].map (MessageNetEventCells SampleClient.ID)) ∧
      Client1.InBuffer.Data = [] ∧ Client1.ID = SampleClient.ID :=
  C1_framing_chunk_independent SampleHeaders SampleContext SampleClient
    [[1, 80, 73, 78, 71], [2, 9]] [[5], [0, 1, 80], [73, 78, 71, 2], [0, 2, 9]]
    (by decide) (by decide) (by decide) (by decide) (by decide)

/-- C1 as stated fails: for the packets with payloads `[]` and `[1, 80, 73, 78, 71]`
(stream `0 0 5 0 1 80 73 78 71`) received in one read, `ProcessIncoming` takes
the empty payload for "no complete frame": no event is written and the nine
bytes stay in the buffer. -/
theorem C1_counterexample_empty_payload :
    PacketStream [[], [1, 80, 73, 78, 71]] = [0, 0, 5, 0, 1, 80, 73, 78, 71] ∧
    ReceiveReads SampleHeaders [[0, 0, 5, 0, 1, 80, 73, 78, 71]] SampleContext SampleClient =
      some (SampleContext,
        { SampleClient with
          InBuffer := { SampleClient.InBuffer with Data := [0, 0, 5, 0, 1, 80, 73, 78, 71] } }) ∧
    SampleContext.EventRing.Chunks = [] := by
  refine ⟨by decide, by rfl, by decide⟩
theorem PosixExtractPacketMessage_noComplete (Data : List Nat) (W : Nat)
    (h : NoCompletePacket Data) : PosixExtractPacketMessage (Data.take W) = [] := by
  simp only [PosixExtractPacketMessage]
  split
  · rfl
  · rename_i h2
    simp only [POSIX_PACKET_HEADER_SIZE, List.length_take, not_lt] at h2
    have hW : 2 ≤ W := le_trans h2 (min_le_left _ _)
    have hD : 2 ≤ Data.length := le_trans h2 (min_le_right _ _)
    match Data, hD, h with
    | a :: b :: Data1, _, h =>
      obtain ⟨W1, rfl⟩ : ∃ W1, W = W1 + 2 := ⟨W - 2, by omega⟩
      simp only [NoCompletePacket, POSIX_PACKET_HEADER_SIZE, List.length_cons, List.headD_cons,
        List.tail_cons] at h
      simp only [List.take_succ_cons, List.headD_cons, List.tail_cons, List.length_cons,
        List.length_take, POSIX_PACKET_HEADER_SIZE]
      rw [if_pos]
      rcases h with h | h
      · omega
      · have := min_le_right W1 Data1.length
        omega

theorem ProcessIncoming_noComplete (H : net_headers) (C : posix_net_context)
    (Client : posix_net_client) (h : NoCompletePacket Client.InBuffer.Data) :
    ProcessIncoming H C Client = some (C, Client) := by
  simp [ProcessIncoming, ProcessIncomingLoop, ByteRingBufferPeek,
    PosixExtractPacketMessage_noComplete _ _ h]

/-- C2 (amended): when the byte stream buffer of a client holds no complete
socket packet (fewer bytes than the header, or fewer than header plus declared
length), `ProcessIncoming` writes no event and leaves the context and the
buffer, read position included, as they are.  Once the missing bytes of a packet
are appended, and its payload is one that `ProcessIncoming` takes for a message
(not empty, valid type, fitting the read buffer and the arena), the next
`ProcessIncoming` writes the Message event of that packet and consumes it. -/
theorem C2_incomplete_packet (H : net_headers) (C : posix_net_context) (Client : posix_net_client)
    (hno : NoCompletePacket Client.InBuffer.Data) :
    ProcessIncoming H C Client = some (C, Client) ∧
    ∀ (Message Missing : List Nat),
      Client.InBuffer.Data ++ Missing = SerializePacket Message →
      AcceptedMessage H (C.Allocator.Capacity - C.Allocator.Length) Message →
      POSIX_PACKET_HEADER_SIZE + Message.length ≤ C.IncomingReadBuffer →
      Client.InBuffer.Data.length + Missing.length ≤ Client.InBuffer.Capacity →
      ∃ D Client1,
        ReceiveInput H C Client { Addr := Missing, Length := Missing.length } = some (D, Client1) ∧
        D.EventRing = (ChunkRingBufferWrite C.EventRing (MessageNetEventCells Client.ID Message)).2 ∧
        (ChunkRingBufferHasRoom C.EventRing (MessageNetEventCells Client.ID Message).length = true →
          D.EventRing.Chunks = C.EventRing.Chunks ++ [MessageNetEventCells Client.ID Message]) ∧
        Client1.InBuffer.Data = [] ∧ Client1.ID = Client.ID := by
  refine ⟨ProcessIncoming_noComplete H C Client hno, ?_⟩
  intro Message Missing hdata hacc hW hcap
  have hwrite : ByteRingBufferWrite Client.InBuffer { Addr := Missing, Length := Missing.length } =
      { Client.InBuffer with Data := Client.InBuffer.Data ++ Missing } := by
    simp only [ByteRingBufferWrite, List.take_length]
    rw [if_pos hcap]
  obtain ⟨D, Client1, h1, h2, h3⟩ := ProcessIncomingLoop_packets H [Message] []
    ((Client.InBuffer.Data ++ Missing).length + 1) C
    { Client with InBuffer := { Client.InBuffer with Data := Client.InBuffer.Data ++ Missing } }
    (by simp only [List.length_singleton, hdata, SerializePacket_length, POSIX_PACKET_HEADER_SIZE]; omega)
    (by simpa using hacc) (by simpa using hW)
    (by simp [PacketStream, hdata])
    (PosixExtractPacketMessage_nil _)
  obtain ⟨_, f2, _, _⟩ := ProcessIncomingLoop_frame _ _ _ _ _ _ h1
  refine ⟨D, Client1, ?_, ?_, ?_, h3, f2⟩
  · simp only [ReceiveInput, ProcessIncoming, hwrite]
    exact h1
  · rw [h2]; rfl
  · intro hr
    rw [h2]
    show (ChunkRingBufferWrite C.EventRing (MessageNetEventCells Client.ID Message)).2.Chunks = _
    rw [ChunkRingBufferWrite_room _ _ hr]

theorem C2_incomplete_packet_witness :
    ProcessIncoming SampleHeaders SampleContext
        { SampleClient with InBuffer := { SampleClient.InBuffer with Data := [10, 0, 1, 2, 3, 4] } } =
      some (SampleContext,
        { SampleClient with InBuffer := { SampleClient.InBuffer with Data := [10, 0, 1, 2, 3, 4] } }) ∧
    ∃ D Client1,
      ReceiveInput SampleHeaders SampleContext
        { SampleClient with InBuffer := { SampleClient.InBuffer with Data := [10, 0, 1, 2, 3, 4] } }
        { Addr := [5, 6, 7, 8, 9, 10], Length := 6 } = some (D, Client1) ∧
      D.EventRing = (ChunkRingBufferWrite SampleContext.EventRing
        (MessageNetEventCells 1 [1, 2, 3, 4, 5, 6, 7, 8, 9, 10])).2 ∧
      (ChunkRingBufferHasRoom SampleContext.EventRing
          (MessageNetEventCells 1 [1, 2, 3, 4, 5, 6, 7, 8, 9, 10]).length = true →
        D.EventRing.Chunks = SampleContext.EventRing.Chunks ++
          [MessageNetEventCells 1 [1, 2, 3, 4, 5, 6, 7, 8, 9, 10]]) ∧
      Client1.InBuffer.Data = [] ∧ Client1.ID = 1 :=
  have h := C2_incomplete_packet SampleHeaders SampleContext
    { SampleClient with InBuffer := { SampleClient.InBuffer with Data := [10, 0, 1, 2, 3, 4] } }
    (by decide)
  ⟨h.1, h.2 [1, 2, 3, 4, 5, 6, 7, 8, 9, 10] [5, 6, 7, 8, 9, 10] (by decide) (by decide) (by decide)
    (by decide)⟩

/-- C2 as stated fails: a buffer that holds the single byte `0` holds no complete
packet; after the missing header byte `0` is appended the packet `0 0` (empty
payload) is complete, yet `ProcessIncoming` writes no event and the two bytes
stay in the buffer. -/
theorem C2_counterexample_completed_empty_packet :
    NoCompletePacket [0] ∧ [0] ++ [0] = SerializePacket [] ∧
    ReceiveInput SampleHeaders SampleContext
        { SampleClient with InBuffer := { SampleClient.InBuffer with Data := [0] } }
        { Addr := [0], Length := 1 } =
      some (SampleContext,
        { SampleClient with InBuffer := { SampleClient.InBuffer with Data := [0, 0] } }) := by
  refine ⟨by decide, by decide, by rfl⟩
/-- C8 at the failing input: client 1 (handle 6) is registered and the read on
handle 6 returns -1.  The client loop takes the `else` branch: the result is
converted to the length `2^64 - 1` of the input given to `ByteRingBufferWrite`,
and the iteration ends exactly like one in which nothing was readable, with no
fault and no event. -/
theorem C8_failed_read_taken_as_data :
    ToMemsize (-1) = 18446744073709551615 ∧
    ServiceClients SampleHeaders SampleFailedReadEnv [6] SampleOneClientContext =
      (ReceiveFromClient SampleHeaders SampleOneClientContext 0 SampleClient (-1) []).bind
        (fun C => ServiceClientsLoop SampleHeaders SampleFailedReadEnv [6] 1 1 (RecalcReadFDMax C)) ∧
    RunPosixNetIteration SampleHeaders SampleFailedReadEnv SampleOneClientContext =
      some SampleOneClientContext ∧
    RunPosixNetIteration SampleHeaders SampleEnv SampleOneClientContext =
      some SampleOneClientContext := by
  refine ⟨by decide, by rfl, by rfl, by rfl⟩
/-- What an owner-side submit returns when it returns: the unit value, and the
context after serialization into the arena, the write to the command queue and
the wake. -/
theorem SubmitNetCommand_some (H : net_headers) (C : posix_net_context) (Command : net_command)
    (R : Unit × posix_net_context) (h : SubmitNetCommand H C Command = some R) :
    H.NET_COMMAND_MAX_LENGTH ≤ C.Allocator.Capacity - C.Allocator.Length ∧
    (NetCommandCells Command).length ≤ C.Allocator.Capacity - C.Allocator.Length ∧
    R = ((), { C with
      Allocator := ScratchWritten C.Allocator (NetCommandCells Command)
      CommandRing := (ChunkRingBufferWrite C.CommandRing (NetCommandCells Command)).2
      WakePending := C.WakePending + 1 }) := by
  cases Command <;>
  · simp only [SubmitNetCommand, PosixNetSend, PosixNetBroadcast, ShutdownPosixNet,
      SerializeSendNetCommand, SerializeBroadcastNetCommand, SerializeShutdownNetCommand,
      Option.bind_eq_bind, Option.bind_eq_some, Assert_eq_some, decide_eq_true_eq,
      GetLinearAllocatorFree] at h
    obtain ⟨_, h1, S, h2, h3⟩ := h
    obtain ⟨h4, rfl⟩ := SerializeInto_some _ _ _ h2
    simp only [Option.some.injEq] at h3
    exact ⟨h1, h4, h3.symm⟩

theorem SubmitNetCommand_eq_some (H : net_headers) (C : posix_net_context) (Command : net_command)
    (h1 : H.NET_COMMAND_MAX_LENGTH ≤ C.Allocator.Capacity - C.Allocator.Length)
    (h2 : (NetCommandCells Command).length ≤ C.Allocator.Capacity - C.Allocator.Length) :
    SubmitNetCommand H C Command = some ((), { C with
      Allocator := ScratchWritten C.Allocator (NetCommandCells Command)
      CommandRing := (ChunkRingBufferWrite C.CommandRing (NetCommandCells Command)).2
      WakePending := C.WakePending + 1 }) := by
  cases Command <;>
  · simp only [SubmitNetCommand, PosixNetSend, PosixNetBroadcast, ShutdownPosixNet,
      SerializeSendNetCommand, SerializeBroadcastNetCommand, SerializeShutdownNetCommand,
      Option.bind_eq_bind, GetLinearAllocatorFree, ge_iff_le, h1, decide_True, Assert_true,
      Option.some_bind, SerializeInto_eq_some _ _ h2]
    rfl

/-- C7 (amended): `PosixNetSend`, `PosixNetBroadcast` and `ShutdownPosixNet`
return no result (`void`).  With the arena space they assert, each returns the
same unit value whether or not the command queue can take the command; when it
cannot, the command queue is left as it is, so the command is dropped, and the
wake is requested all the same; when it can, the command is appended. -/
theorem C7_submit_returns_nothing (H : net_headers) (C : posix_net_context)
    (Command : net_command)
    (h1 : H.NET_COMMAND_MAX_LENGTH ≤ C.Allocator.Capacity - C.Allocator.Length)
    (h2 : (NetCommandCells Command).length ≤ C.Allocator.Capacity - C.Allocator.Length) :
    ∃ D, SubmitNetCommand H C Command = some ((), D) ∧
      D.WakePending = C.WakePending + 1 ∧
      (ChunkRingBufferHasRoom C.CommandRing (NetCommandCells Command).length = false →
        D.CommandRing = C.CommandRing) ∧
      (ChunkRingBufferHasRoom C.CommandRing (NetCommandCells Command).length = true →
        D.CommandRing.Chunks = C.CommandRing.Chunks ++ [NetCommandCells Command]) := by
  refine ⟨_, SubmitNetCommand_eq_some H C Command h1 h2, rfl, ?_, ?_⟩
  · intro hr
    show (ChunkRingBufferWrite C.CommandRing (NetCommandCells Command)).2 = _
    rw [ChunkRingBufferWrite_full _ _ hr]
  · intro hr
    show (ChunkRingBufferWrite C.CommandRing (NetCommandCells Command)).2.Chunks = _
    rw [ChunkRingBufferWrite_room _ _ hr]

theorem C7_submit_returns_nothing_witness :
    ∃ D, SubmitNetCommand SampleHeaders SampleFullContext (.send 1 [72]) = some ((), D) ∧
      D.WakePending = SampleFullContext.WakePending + 1 ∧
      (ChunkRingBufferHasRoom SampleFullContext.CommandRing (NetCommandCells (.send 1 [72])).length = false →
        D.CommandRing = SampleFullContext.CommandRing) ∧
      (ChunkRingBufferHasRoom SampleFullContext.CommandRing (NetCommandCells (.send 1 [72])).length = true →
        D.CommandRing.Chunks = SampleFullContext.CommandRing.Chunks ++ [NetCommandCells (.send 1 [72])]) :=
  C7_submit_returns_nothing SampleHeaders SampleFullContext (.send 1 [72]) (by decide) (by decide)

/-- C7 as stated fails: the command queue of the sample engine is full, and
`PosixNetSend`, `PosixNetBroadcast` and `ShutdownPosixNet` return what they
return when the queue has room, while the queue stays as it was: the command is
dropped without a failure result. -/
theorem C7_counterexample_full_queue :
    ChunkRingBufferHasRoom SampleFullContext.CommandRing 1 = false ∧
    (PosixNetSend SampleHeaders SampleFullContext 1 [72]).map Prod.fst =
      (PosixNetSend SampleHeaders SampleContext 1 [72]).map Prod.fst ∧
    (PosixNetSend SampleHeaders SampleFullContext 1 [72]).map (fun R => R.2.CommandRing) =
      some SampleFullContext.CommandRing ∧
    (PosixNetBroadcast SampleHeaders SampleFullContext [1, 2] [72]).map Prod.fst =
      (PosixNetBroadcast SampleHeaders SampleContext [1, 2] [72]).map Prod.fst ∧
    (PosixNetBroadcast SampleHeaders SampleFullContext [1, 2] [72]).map (fun R => R.2.CommandRing) =
      some SampleFullContext.CommandRing ∧
    (ShutdownPosixNet SampleHeaders SampleFullContext).map Prod.fst =
      (ShutdownPosixNet SampleHeaders SampleContext).map Prod.fst ∧
    (ShutdownPosixNet SampleHeaders SampleFullContext).map (fun R => R.2.CommandRing) =
      some SampleFullContext.CommandRing ∧
    (PosixNetSend SampleHeaders SampleContext 1 [72]).map (fun R => R.2.CommandRing.Chunks) =
      some [NetCommandCells (.send 1 [72])] := by
  refine ⟨by decide, by rfl, by rfl, by rfl, by rfl, by rfl, by rfl, by rfl⟩
theorem WriteMemory_take (Memory : List Nat) (Offset : Nat) (Cells : List Nat)
    (h : Offset ≤ Memory.length) :
    (WriteMemory Memory Offset Cells).take Offset = Memory.take Offset := by
  simp only [WriteMemory, List.append_assoc]
  rw [List.take_append_eq_append_take, List.take_take, Nat.min_self, List.length_take,
    Nat.min_eq_left h, Nat.sub_self, List.take_zero, List.append_nil]

theorem WriteMemory_below (Memory : List Nat) (Offset : Nat) (Cells : List Nat)
    (h : Offset ≤ Memory.length) (Cell : Nat) (hc : Cell < Offset) :
    (WriteMemory Memory Offset Cells)[Cell]? = Memory[Cell]? := by
  rw [← List.getElem?_take_of_lt hc, WriteMemory_take _ _ _ h, List.getElem?_take_of_lt hc]

theorem WriteMemory_at (Memory : List Nat) (Offset : Nat) (Cells : List Nat)
    (h : Offset ≤ Memory.length) :
    ((WriteMemory Memory Offset Cells).drop Offset).take Cells.length = Cells := by
  simp only [WriteMemory, List.append_assoc]
  rw [List.drop_append_eq_append_drop, List.length_take, Nat.min_eq_left h, Nat.sub_self,
    List.drop_zero, List.drop_take, Nat.sub_self, List.take_zero, List.nil_append, List.take_left]

/-- C9 (amended): `PosixNetSend`, `PosixNetBroadcast`, `ShutdownPosixNet` and
`ReadPosixNetEvent` leave the registry with the byte stream buffers, the
handles, the mode, `ReadFDMax` and the scratch buffers as they are, and the
capacity and the cursor of the arena are after the call what they were before.
The three submit functions write the arena: the command is serialized at the
cursor and stays there after the release, and it is written to the command
queue, whose storage lies in the arena; the arena cells below the cursor outside
that storage are left alone.  They also raise the wake signal.
`ReadPosixNetEvent` changes the event queue only. -/
theorem C9_owner_frame (H : net_headers) (C D : posix_net_context)
    (hwf : C.Allocator.Length ≤ C.Allocator.Memory.length) :
    (∀ (Command : net_command) (R : Unit), SubmitNetCommand H C Command = some (R, D) →
      OwnerFrame C D ∧ D.EventRing = C.EventRing ∧
      D.CommandRing = (ChunkRingBufferWrite C.CommandRing (NetCommandCells Command)).2 ∧
      D.WakePending = C.WakePending + 1 ∧
      (D.Allocator.Memory.drop C.Allocator.Length).take (NetCommandCells Command).length =
        NetCommandCells Command) ∧
    (∀ (BufferLength : Nat) (Event : List Nat), ReadPosixNetEvent C BufferLength = some (Event, D) →
      OwnerFrame C D ∧ D.Allocator = C.Allocator ∧ D.CommandRing = C.CommandRing ∧
      D.WakePending = C.WakePending) := by
  constructor
  · intro Command R h
    obtain ⟨_, _, h3⟩ := SubmitNetCommand_some H C Command _ h
    simp only [Prod.mk.injEq] at h3
    obtain ⟨_, rfl⟩ := h3
    refine ⟨⟨rfl, rfl, rfl, rfl, rfl, rfl, rfl, rfl, rfl, rfl, rfl, rfl, ?_⟩, rfl, rfl, rfl, ?_⟩
    · intro Cell hc _
      exact WriteMemory_below _ _ _ hwf Cell hc
    · exact WriteMemory_at _ _ _ hwf
  · intro BufferLength Event h
    simp only [ReadPosixNetEvent] at h
    split at h
    · simp at h
    · simp only [Option.some.injEq, Prod.mk.injEq] at h
      obtain ⟨_, rfl⟩ := h
      exact ⟨⟨rfl, rfl, rfl, rfl, rfl, rfl, rfl, rfl, rfl, rfl, rfl, rfl, fun _ _ _ => rfl⟩,
        rfl, rfl, rfl⟩

theorem C9_owner_frame_witness :
    OwnerFrame SampleArenaQueueContext
      { SampleArenaQueueContext with
        Allocator := ScratchWritten SampleArenaQueueContext.Allocator (NetCommandCells (.send 1 [72]))
        CommandRing :=
          (ChunkRingBufferWrite SampleArenaQueueContext.CommandRing (NetCommandCells (.send 1 [72]))).2
        WakePending := 1 } ∧
    ((ScratchWritten SampleArenaQueueContext.Allocator (NetCommandCells (.send 1 [72]))).Memory.drop
        SampleArenaQueueContext.Allocator.Length).take (NetCommandCells (.send 1 [72])).length =
      NetCommandCells (.send 1 [72]) :=
  have h := (C9_owner_frame SampleHeaders SampleArenaQueueContext
    { SampleArenaQueueContext with
      Allocator := ScratchWritten SampleArenaQueueContext.Allocator (NetCommandCells (.send 1 [72]))
      CommandRing :=
        (ChunkRingBufferWrite SampleArenaQueueContext.CommandRing (NetCommandCells (.send 1 [72]))).2
      WakePending := 1 }
    (by
      show 200 ≤ (List.replicate 1024 0).length
      rw [List.length_replicate]
      decide)).1 (.send 1 [72]) () (by rfl)
  ⟨h.1, h.2.2.2.2⟩

/-- C9 as stated fails: `PosixNetSend` serializes the command into the arena of
the context, the one the engine thread allocates from, and the cells stay there
after the checkpoint is released.  In the sample engine laid out as
`InitPosixNet` does, the four arena cells at the cursor are zero before the call
and hold the command `1 1 1 72` after it, the cursor is back at 200, and the
command went into the command queue, whose storage is the arena block at
offset 0. -/
theorem C9_counterexample_arena_written :
    (SampleArenaQueueContext.Allocator.Memory.drop 200).take 4 = [0, 0, 0, 0] ∧
    (PosixNetSend SampleHeaders SampleArenaQueueContext 1 [72]).map
        (fun R => (R.2.Allocator.Memory.drop 200).take 4) = some [1, 1, 1, 72] ∧
    (PosixNetSend SampleHeaders SampleArenaQueueContext 1 [72]).map
        (fun R => R.2.Allocator.Length) = some 200 ∧
    (PosixNetSend SampleHeaders SampleArenaQueueContext 1 [72]).map
        (fun R => (R.2.CommandRing.Storage, R.2.CommandRing.Chunks)) =
      some (some 0, [[1, 1, 1, 72]]) := by
  refine ⟨by rfl, by rfl, by rfl, by rfl⟩

end Lockstep
